import Mathlib

/-!
Verification development for the core subsystems of a JIT compiler
infrastructure: the caching device allocator
(`aten/src/THC/THCCachingAllocator.cpp`), the IR graph structures
(`torch/csrc/jit/ir.cpp`), the structural type unifier
(`aten/src/ATen/core/type.cpp`) and the alias analysis
(`torch/csrc/jit/passes/alias_analysis.cpp`).

Each definition is a shallow embedding of the corresponding C++
function; machine integers are modelled as `Nat` with an explicit
`% 2 ^ 64` where `size_t` overflow is observable, and as `Int` for the
signed 64-bit topological positions.
-/

namespace Alloc

/-- `kRoundSmall`: round up small allocs to 512 bytes. -/
def kRoundSmall : Nat := 512

/-- `kRoundLarge`: round up large allocs to 128 KiB. -/
def kRoundLarge : Nat := 131072

/-- `kSmallAlloc`: largest "small" allocation is 1 MiB. -/
def kSmallAlloc : Nat := 1048576

/-- `THCCachingAllocator::round_size`.  `size` is a `size_t`; the
additions in the two round-up branches are performed modulo `2 ^ 64`
exactly as unsigned C++ arithmetic would. -/
def round_size (size : Nat) : Nat :=
  if size < kRoundSmall then
    kRoundSmall
  else if size < kSmallAlloc then
    (size + (kRoundSmall - 1 - (size - 1) % kRoundSmall)) % 2 ^ 64
  else
    (size + (kRoundLarge - 1 - (size - 1) % kRoundLarge)) % 2 ^ 64

/-- `r` is the least multiple of `d` that is at least `s`. -/
def IsLeastMultipleGE (d r s : Nat) : Prop :=
  r % d = 0 ∧ s ≤ r ∧ ∀ m, m % d = 0 → s ≤ m → r ≤ m

end Alloc

namespace Alloc

/-- Association-list lookup by `Nat` key, returning the first match (the
lookup behaviour of `std::unordered_map` / `std::map`). -/
def alookup {α : Type} : Nat → List (Nat × α) → Option α
  | _, [] => none
  | k, (k', v) :: es => if k = k' then some v else alookup k es

/-- Remove the first entry with the given key (`map.erase(it)`). -/
def aerase {α : Type} : Nat → List (Nat × α) → List (Nat × α)
  | _, [] => []
  | k, (k', v) :: es => if k = k' then es else (k', v) :: aerase k es

/-- Update every entry with the given key in place. -/
def aupdate {α : Type} (k : Nat) (f : α → α) (l : List (Nat × α)) :
    List (Nat × α) :=
  l.map fun e => if e.1 = k then (k, f e.2) else e

/-- `DeviceStats`: per-device counters of the caching allocator. -/
structure DeviceStats where
  amount_allocated : Nat
  max_amount_allocated : Nat
  amount_cached : Nat
  max_amount_cached : Nat
deriving Repr, DecidableEq

/-- The zero-initialised `DeviceStats`. -/
def DeviceStats.init : DeviceStats := ⟨0, 0, 0, 0⟩

/-- `DeviceStats::increaseAllocated`. -/
def DeviceStats.increaseAllocated (s : DeviceStats) (delta : Nat) : DeviceStats :=
  { s with amount_allocated := s.amount_allocated + delta,
           max_amount_allocated :=
             max s.max_amount_allocated (s.amount_allocated + delta) }

/-- `DeviceStats::decreaseAllocated`. -/
def DeviceStats.decreaseAllocated (s : DeviceStats) (delta : Nat) : DeviceStats :=
  { s with amount_allocated := s.amount_allocated - delta }

/-- `DeviceStats::increaseCached`. -/
def DeviceStats.increaseCached (s : DeviceStats) (delta : Nat) : DeviceStats :=
  { s with amount_cached := s.amount_cached + delta,
           max_amount_cached := max s.max_amount_cached (s.amount_cached + delta) }

/-- `DeviceStats::decreaseCached`. -/
def DeviceStats.decreaseCached (s : DeviceStats) (delta : Nat) : DeviceStats :=
  { s with amount_cached := s.amount_cached - delta }

/-- An allocator `Block`.  Heap pointers between blocks (`prev`/`next`) are
modelled as optional block ids into the arena `AllocState.blocks`; device
pointers (`ptr`) are `Nat`, with `0` playing the role of `NULL`. -/
structure Block where
  device : Nat
  stream : Nat
  stream_uses : List Nat
  size : Nat
  ptr : Nat
  allocated : Bool
  prev : Option Nat
  next : Option Nat
  event_count : Nat
deriving Repr, DecidableEq

/-- The `Block(device, stream, size, ptr)` constructor. -/
def Block.mk0 (device stream size ptr : Nat) : Block :=
  ⟨device, stream, [], size, ptr, false, none, none, 0⟩

/-- `BlockComparator`: the strict ordering key `(device, stream, size, ptr)`
of the free pools. -/
def BlockComparator (a b : Block) : Bool :=
  if a.device ≠ b.device then decide (a.device < b.device)
  else if a.stream ≠ b.stream then decide (a.stream < b.stream)
  else if a.size ≠ b.size then decide (a.size < b.size)
  else decide (a.ptr < b.ptr)

/-- The full state of `THCCachingAllocator`.  Heap-allocated `Block` objects
live in the arena `blocks` keyed by block id; the two free pools hold block
ids in `BlockComparator` order; `allocated_blocks` maps a device pointer to
the id of its allocated block; `cuda_events` is the FIFO of outstanding
`(event handle, block id)` pairs. -/
structure AllocState where
  blocks : List (Nat × Block)
  nextId : Nat
  small_blocks : List Nat
  large_blocks : List Nat
  allocated_blocks : List (Nat × Nat)
  cuda_events : List (Nat × Nat)
  nextEvent : Nat
  device_stats : List (Nat × DeviceStats)
deriving Repr, DecidableEq

/-- The freshly-constructed allocator: everything empty. -/
def AllocState.init : AllocState := ⟨[], 0, [], [], [], [], 0, []⟩

/-- Dereference a block id (the arena stand-in for following a `Block*`). -/
def AllocState.getBlock (σ : AllocState) (bid : Nat) : Block :=
  (alookup bid σ.blocks).getD (Block.mk0 0 0 0 0)

/-- Overwrite the block stored at an id (mutation through a `Block*`;
in C++ the pointer is always live, so the absent case — inserting the
entry — keeps the operation total without changing reachable behaviour). -/
def AllocState.setBlock (σ : AllocState) (bid : Nat) (b : Block) : AllocState :=
  if (alookup bid σ.blocks).isSome then
    { σ with blocks := aupdate bid (fun _ => b) σ.blocks }
  else
    { σ with blocks := (bid, b) :: σ.blocks }

/-- `new Block(...)`: store a fresh block in the arena under the next free
id; returns the new state and the id (the stand-in for the `Block*`). -/
def AllocState.newBlock (σ : AllocState) (b : Block) : AllocState × Nat :=
  ({ σ with blocks := (σ.nextId, b) :: σ.blocks, nextId := σ.nextId + 1 },
   σ.nextId)

/-- `allocated_blocks[ptr] = block`. -/
def AllocState.recordAllocated (σ : AllocState) (ptr bid : Nat) : AllocState :=
  { σ with allocated_blocks := (ptr, bid) :: σ.allocated_blocks }

/-- `allocated_blocks.erase(it)`. -/
def AllocState.eraseAllocated (σ : AllocState) (ptr : Nat) : AllocState :=
  { σ with allocated_blocks := aerase ptr σ.allocated_blocks }

/-- Create-and-record one CUDA event for the block:
`cuda_events.emplace_back(event, block)` with a fresh event handle. -/
def AllocState.pushEvent (σ : AllocState) (bid : Nat) : AllocState :=
  { σ with cuda_events := σ.cuda_events ++ [(σ.nextEvent, bid)],
           nextEvent := σ.nextEvent + 1 }

/-- Replace the outstanding-event FIFO. -/
def AllocState.setQueue (σ : AllocState) (q : List (Nat × Nat)) : AllocState :=
  { σ with cuda_events := q }

/-- `delete block`: drop the block from the arena. -/
def AllocState.removeBlock (σ : AllocState) (bid : Nat) : AllocState :=
  { σ with blocks := σ.blocks.filter fun e => e.1 ≠ bid }

/-- `get_stats_for_device` (read side; the `vector` auto-resize of the C++
is modelled by defaulting absent devices to zero-initialised stats). -/
def AllocState.get_stats_for_device (σ : AllocState) (device : Nat) : DeviceStats :=
  (alookup device σ.device_stats).getD DeviceStats.init

/-- Apply an update to one device's statistics entry. -/
def AllocState.setStats (σ : AllocState) (device : Nat)
    (f : DeviceStats → DeviceStats) : AllocState :=
  if (alookup device σ.device_stats).isSome then
    { σ with device_stats := aupdate device f σ.device_stats }
  else
    { σ with device_stats := (device, f DeviceStats.init) :: σ.device_stats }

/-- Ordered insertion of a block id into a free-pool list
(`std::set::insert` under `BlockComparator`). -/
def poolInsertList (σ : AllocState) (bid : Nat) : List Nat → List Nat
  | [] => [bid]
  | x :: xs =>
    if BlockComparator (σ.getBlock bid) (σ.getBlock x) then bid :: x :: xs
    else x :: poolInsertList σ bid xs

/-- Insert a block id into the chosen free pool. -/
def AllocState.poolInsert (σ : AllocState) (small : Bool) (bid : Nat) : AllocState :=
  if small then { σ with small_blocks := poolInsertList σ bid σ.small_blocks }
  else { σ with large_blocks := poolInsertList σ bid σ.large_blocks }

/-- Erase a block id from the chosen free pool (`free_blocks.erase`). -/
def AllocState.poolErase (σ : AllocState) (small : Bool) (bid : Nat) : AllocState :=
  if small then { σ with small_blocks := σ.small_blocks.filter (· ≠ bid) }
  else { σ with large_blocks := σ.large_blocks.filter (· ≠ bid) }

/-- The free-pool search of `malloc`: `lower_bound(&search_key)` on the
ordered pool followed by the `device`/`stream` match check.  In the sorted
pool the lower bound is the first id not `BlockComparator`-below the search
key `Block(device, stream, size)`. -/
def AllocState.poolFind (σ : AllocState) (small : Bool)
    (device stream size : Nat) : Option Nat :=
  let key := Block.mk0 device stream size 0
  let pool := if small then σ.small_blocks else σ.large_blocks
  match pool.find? fun bid => ! BlockComparator (σ.getBlock bid) key with
  | none => none
  | some bid =>
    if (σ.getBlock bid).device = device ∧ (σ.getBlock bid).stream = stream then
      some bid
    else none

/-- `THCCachingAllocator::try_merge_blocks(dst, src, free_blocks)`. -/
def try_merge_blocks (σ : AllocState) (dst : Nat) (srcOpt : Option Nat)
    (small : Bool) : AllocState :=
  match srcOpt with
  | none => σ
  | some src =>
    let s := σ.getBlock src
    if s.allocated || decide (0 < s.event_count) then σ
    else
      let d := σ.getBlock dst
      let σ :=
        if d.prev = some src then
          let σ := σ.setBlock dst { d with ptr := s.ptr, prev := s.prev }
          match s.prev with
          | some p => σ.setBlock p { σ.getBlock p with next := some dst }
          | none => σ
        else
          let σ := σ.setBlock dst { d with next := s.next }
          match s.next with
          | some nx => σ.setBlock nx { σ.getBlock nx with prev := some dst }
          | none => σ
      let σ := σ.setBlock dst
        { σ.getBlock dst with size := (σ.getBlock dst).size + s.size }
      let σ := σ.poolErase small src
      σ.removeBlock src

/-- `THCCachingAllocator::free_block`: coalesce with both neighbours and
insert into the free pool chosen by the block's size. -/
def free_block (σ : AllocState) (bid : Nat) : AllocState :=
  let small := (σ.getBlock bid).size ≤ kSmallAlloc
  let σ := try_merge_blocks σ bid (σ.getBlock bid).prev small
  let σ := try_merge_blocks σ bid (σ.getBlock bid).next small
  σ.poolInsert small bid

/-- `THCCachingAllocator::insert_events`: move the block's recorded stream
uses out, and enqueue one fresh event per recorded stream, bumping the
block's outstanding-event count. -/
def insert_events (σ : AllocState) (bid : Nat) : AllocState :=
  let streams := (σ.getBlock bid).stream_uses
  let σ := σ.setBlock bid { σ.getBlock bid with stream_uses := [] }
  streams.foldl
    (fun σ _stream =>
      let b := σ.getBlock bid
      let σ := σ.setBlock bid { b with event_count := b.event_count + 1 }
      σ.pushEvent bid)
    σ

/-- The loop of `THCCachingAllocator::process_events`, recursing over the
event FIFO; `ready` is the external `cudaEventQuery` oracle. -/
def process_events_go (ready : Nat → Bool) :
    List (Nat × Nat) → AllocState → AllocState
  | [], σ => σ.setQueue []
  | (e, bid) :: rest, σ =>
    if ready e then
      let b := σ.getBlock bid
      let σ := σ.setBlock bid { b with event_count := b.event_count - 1 }
      let σ := if b.event_count - 1 = 0 then free_block σ bid else σ
      process_events_go ready rest σ
    else σ.setQueue ((e, bid) :: rest)

/-- `THCCachingAllocator::process_events`. -/
def process_events (ready : Nat → Bool) (σ : AllocState) : AllocState :=
  process_events_go ready σ.cuda_events σ

/-- One pool's sweep of `free_cached_blocks` / `free_blocks`: return every
non-split cached block of `device` to the underlying allocator. -/
def cudaFreeSweep (σ : AllocState) (small : Bool) (device : Nat) : AllocState :=
  let pool := if small then σ.small_blocks else σ.large_blocks
  pool.foldl
    (fun σ bid =>
      let b := σ.getBlock bid
      if b.device = device ∧ b.prev = none ∧ b.next = none then
        let σ := σ.setStats b.device (·.decreaseCached b.size)
        let σ := σ.poolErase small bid
        σ.removeBlock bid
      else σ)
    σ

/-- `THCCachingAllocator::free_cached_blocks(device)`: sweep the large pool,
then the small pool. -/
def free_cached_blocks (σ : AllocState) (device : Nat) : AllocState :=
  cudaFreeSweep (cudaFreeSweep σ false device) true device

/-- The structured errors the allocator surfaces. -/
inductive AllocError where
  | invalidPointer
  | outOfMemory
deriving Repr, DecidableEq

/-- `THCCachingAllocator::free(ptr)`.  The C++ throws (`AT_ERROR`) before
touching any state when the pointer is unknown, so the error case returns
the state unchanged alongside the surfaced error. -/
def free (σ : AllocState) (ptr : Nat) : Option AllocError × AllocState :=
  if ptr = 0 then (none, σ)
  else
    match alookup ptr σ.allocated_blocks with
    | none => (some .invalidPointer, σ)
    | some bid =>
      let σ := σ.eraseAllocated ptr
      let b := σ.getBlock bid
      let σ := σ.setBlock bid { b with allocated := false }
      let σ := σ.setStats b.device (·.decreaseAllocated b.size)
      if b.stream_uses ≠ [] then (none, insert_events σ bid)
      else (none, free_block σ bid)

/-- The external CUDA world consumed by `malloc`: the current device, the
`cudaEventQuery` oracle, and the outcome of `cuda_malloc_retry`'s calls to
`cudaMalloc` — `none` when both attempts fail with out-of-memory, otherwise
`some (retried, ptr)` where `retried` records whether the first attempt
failed (forcing `free_cached_blocks`) and `ptr` is the returned pointer. -/
structure CudaEnv where
  curDevice : Nat
  eventQueryReady : Nat → Bool
  mallocResult : Option (Bool × Nat)

/-- The split step of `malloc` (the `block->size - size >=` branch): carve an
allocated head of the rounded size off the chosen block, keep the remainder
as the linked tail and reinsert it into the free pool.  Returns the id of
the block to hand out. -/
def splitStep (σ : AllocState) (device stream size : Nat) (small : Bool)
    (bid : Nat) : AllocState × Nat :=
  let blk := σ.getBlock bid
  if blk.size - size ≥ (if small then kRoundSmall else kSmallAlloc + 1) then
    let r := σ.newBlock
      { Block.mk0 device stream size blk.ptr with
          prev := blk.prev, next := some bid }
    let σ := r.1
    let headId := r.2
    let σ :=
      match blk.prev with
      | some p => σ.setBlock p { σ.getBlock p with next := some headId }
      | none => σ
    let σ := σ.setBlock bid
      { σ.getBlock bid with prev := some headId, ptr := blk.ptr + size,
                            size := blk.size - size }
    let σ := σ.poolInsert small bid
    (σ, headId)
  else (σ, bid)

/-- The tail of `malloc` after a block has been chosen: maybe split, mark
the handed-out block allocated, record it in `allocated_blocks`, and bump
`amount_allocated` by its size. -/
def mallocFinish (σ : AllocState) (device stream size : Nat) (small : Bool)
    (bid : Nat) : Option AllocError × AllocState × Nat :=
  let r := splitStep σ device stream size small bid
  let σ := r.1
  let b := σ.getBlock r.2
  let σ := σ.setBlock r.2 { b with allocated := true }
  let σ := σ.recordAllocated b.ptr r.2
  let σ := σ.setStats device (·.increaseAllocated b.size)
  (none, σ, b.ptr)

/-- `THCCachingAllocator::malloc(devPtr, size, stream)`: process events,
round the size, search the matching free pool, otherwise obtain fresh
device memory (a 1 MiB slab for small requests) via `cuda_malloc_retry`,
then split/mark/record.  Returns `(error?, new state, pointer)`. -/
def malloc (env : CudaEnv) (σ0 : AllocState) (size0 stream : Nat) :
    Option AllocError × AllocState × Nat :=
  let device := env.curDevice
  let σ := process_events env.eventQueryReady σ0
  let size := round_size size0
  let small := size ≤ kSmallAlloc
  match σ.poolFind small device stream size with
  | some bid =>
    let σ := σ.poolErase small bid
    mallocFinish σ device stream size small bid
  | none =>
    let alloc_size := if small then kSmallAlloc else size
    match env.mallocResult with
    | none => (some .outOfMemory, free_cached_blocks σ device, 0)
    | some (retried, ptr) =>
      let σ := if retried then free_cached_blocks σ device else σ
      let σ := σ.setStats device (·.increaseCached alloc_size)
      let r := σ.newBlock (Block.mk0 device stream alloc_size ptr)
      mallocFinish r.1 device stream size small r.2

/-- The observable the allocate-then-free property is about: the device's
current `amount_allocated` statistic. -/
def amountAllocated (σ : AllocState) (device : Nat) : Nat :=
  (σ.get_stats_for_device device).amount_allocated

/-- A CUDA environment for the concrete runs: device 0, no event ever
complete, and a first-try `cudaMalloc` returning pointer 999. -/
def exEnv : CudaEnv := ⟨0, fun _ => false, some (false, 999)⟩

/-- A cached 1024-byte free block at pointer 4096 on `(device 0, stream 0)`. -/
def exCachedBlock : Block := Block.mk0 0 0 1024 4096

/-- An allocator state whose small pool caches exactly `exCachedBlock`
(under block id 1). -/
def exCachedState : AllocState :=
  { AllocState.init with
      blocks := [(1, exCachedBlock)]
      nextId := 2
      small_blocks := [1] }

/-- An allocator state with one allocated 512-byte block at pointer 7. -/
def exAllocatedState : AllocState :=
  { AllocState.init with
      blocks := [(1, { Block.mk0 0 0 512 7 with allocated := true })]
      nextId := 2
      allocated_blocks := [(7, 1)]
      device_stats := [(0, { DeviceStats.init with
                               amount_allocated := 512
                               max_amount_allocated := 512 })] }

end Alloc

namespace IR

/-- `kLowerBound = INT64_MIN`: the param sentinel's position. -/
def kLowerBound : Int := -(2 ^ 63)

/-- `kUpperBound = INT64_MAX`: the return sentinel's position. -/
def kUpperBound : Int := 2 ^ 63 - 1

/-- `kMidPoint = 0`: the position of the first node of an empty block. -/
def kMidPoint : Int := 0

/-- `kAppendInterval = 2 ^ 40`: the append stride. -/
def kAppendInterval : Int := 1099511627776

/-- The loop of `Block::reIndexTopology`: walk the block's real nodes in
order, advancing `curPos` by the append interval for each.  A block is
modelled as the ordered list of its real nodes' `(id, topo_position)`
pairs; the two sentinels are implicit (the param/return sentinels hold
`kLowerBound`/`kUpperBound` and never participate in the arithmetic). -/
def reIndexFrom (curPos : Int) : List (Nat × Int) → List (Nat × Int)
  | [] => []
  | (n, _) :: rest =>
    (n, curPos + kAppendInterval) :: reIndexFrom (curPos + kAppendInterval) rest

/-- `Block::reIndexTopology`. -/
def reIndexTopology (l : List (Nat × Int)) : List (Nat × Int) :=
  reIndexFrom kLowerBound l

/-- `Node::assignTopoPosition` fused with the splice that precedes it:
insert node `id` at index `k` of the block's real-node list and assign its
position.  Appending (`next() == returnNode`, that is `k = length`) places
the first node at `kMidPoint` and otherwise advances the predecessor by the
append interval, reindexing when the range would run off the edge;
prepending (`prev() == returnNode`, that is `k = 0`) mirrors this downward;
inserting between two neighbours takes their midpoint and reindexes when
the midpoint collapses onto the predecessor. -/
def insertNodeAt (l : List (Nat × Int)) (k : Nat) (id : Nat) :
    List (Nat × Int) :=
  if k = l.length then
    match l.getLast? with
    | none => [(id, kMidPoint)]
    | some (_, prevPos) =>
      if prevPos ≥ kUpperBound - kAppendInterval then
        reIndexTopology (l ++ [(id, 0)])
      else l ++ [(id, prevPos + kAppendInterval)]
  else if k = 0 then
    match l.head? with
    | none => [(id, kMidPoint)]
    | some (_, nextPos) =>
      if nextPos ≤ kLowerBound + kAppendInterval then
        reIndexTopology ((id, 0) :: l)
      else (id, nextPos - kAppendInterval) :: l
  else
    match l[k - 1]?, l[k]? with
    | some (_, prevPos), some (_, nextPos) =>
      let posBetween := prevPos + Int.tdiv (nextPos - prevPos) 2
      if posBetween = prevPos then
        reIndexTopology (l.take k ++ (id, 0) :: l.drop k)
      else l.take k ++ (id, posBetween) :: l.drop k
    | _, _ => l

/-- `Block::appendNode` / `Graph::appendNode`: splice before the return
sentinel, that is at the end of the real-node list. -/
def appendNode (l : List (Nat × Int)) (id : Nat) : List (Nat × Int) :=
  insertNodeAt l l.length id

/-- Append nodes `1, 2, …, n` one after another into an empty block. -/
def appendN : Nat → List (Nat × Int)
  | 0 => []
  | n + 1 => appendNode (appendN n) (n + 1)

/-- A `Value`: its position-in-node offset and its use list, each use being
`(user node id, input offset in the user)`. -/
structure IRValue where
  offset : Nat
  uses : List (Nat × Nat)
deriving Repr, DecidableEq

/-- The offset-shift loop of `Node::eraseOutput`: decrement the recorded
offset of every output from list index `i` on. -/
def decOffsetsFrom : Nat → List IRValue → List IRValue
  | _, [] => []
  | 0, v :: rest =>
    { v with offset := v.offset - 1 } :: decOffsetsFrom 0 rest
  | i + 1, v :: rest => v :: decOffsetsFrom i rest

/-- `Node::eraseOutput(i)` on the node's output list: the `JIT_ASSERT`s
(index in range, no remaining uses) are the failure cases; on success the
output is erased and the following offsets are shifted down. -/
def eraseOutput (outs : List IRValue) (i : Nat) : Option (List IRValue) :=
  match outs[i]? with
  | none => none
  | some v =>
    if v.uses = [] then some (decOffsetsFrom i (outs.eraseIdx i))
    else none

/-- `MoveSide`. -/
inductive MoveSide where
  | before
  | after
deriving Repr, DecidableEq

/-- The single-block graph fragment `tryMove` works on: the block's ordered
`(node id, topo_position)` list plus the static value-use relation
`uses` — for each node, the nodes of the same block that consume one of its
outputs, sub-block users already attributed to their enclosing node
(`getUsersSameBlock`). -/
structure MoveGraph where
  order : List (Nat × Int)
  uses : List (Nat × List Nat)
deriving Repr, DecidableEq

/-- The ids of the block's live nodes. -/
def MoveGraph.ids (g : MoveGraph) : List Nat := g.order.map (·.1)

/-- A node's topological position. -/
def MoveGraph.topoOf (g : MoveGraph) (n : Nat) : Int :=
  ((g.order.find? fun e => e.1 = n).map (·.2)).getD 0

/-- `Node::isAfter` within one block: compare topological positions. -/
def MoveGraph.isAfter (g : MoveGraph) (a b : Nat) : Bool :=
  g.topoOf b < g.topoOf a

/-- `Node::isBefore` within one block. -/
def MoveGraph.isBefore (g : MoveGraph) (a b : Nat) : Bool :=
  g.topoOf a < g.topoOf b

/-- `getUsersSameBlock(n)`. -/
def MoveGraph.usersOf (g : MoveGraph) (n : Nat) : List Nat :=
  ((g.uses.find? fun e => e.1 = n).map (·.2)).getD []

/-- The index of a node in the block's linked sequence. -/
def MoveGraph.idxOf (g : MoveGraph) (n : Nat) : Nat :=
  g.order.findIdx fun e => e.1 = n

/-- The `WorkingSet` of `tryMove`: the nodes travelling with the mover (in
insertion order, mover first) and the user → use-count map `users_`. -/
structure WorkingSet where
  nodes : List Nat
  users : List (Nat × Nat)
deriving Repr, DecidableEq

/-- Bump a user's count in `users_` (`users_[user]++`). -/
def bumpUser (m : List (Nat × Nat)) (user : Nat) : List (Nat × Nat) :=
  match m.find? fun e => e.1 = user with
  | some _ => m.map fun e => if e.1 = user then (user, e.2 + 1) else e
  | none => (user, 1) :: m

/-- `WorkingSet::add`. -/
def WorkingSet.add (g : MoveGraph) (ws : WorkingSet) (n : Nat) : WorkingSet :=
  { nodes := ws.nodes ++ [n],
    users := (g.usersOf n).foldl bumpUser ws.users }

/-- The `WorkingSet` constructor: seed with the mover. -/
def WorkingSet.seed (g : MoveGraph) (mover : Nat) : WorkingSet :=
  WorkingSet.add g ⟨[], []⟩ mover

/-- `WorkingSet::eraseMover`: drop the front node; a user entry is removed
only when its count is exactly one (as in the source). -/
def WorkingSet.eraseMover (g : MoveGraph) (ws : WorkingSet) : WorkingSet :=
  match ws.nodes with
  | [] => ws
  | mover :: rest =>
    { nodes := rest,
      users := (g.usersOf mover).foldl
        (fun m user =>
          match m.find? fun e => e.1 = user with
          | some e => if e.2 = 1 then m.filter (fun d => d.1 ≠ user) else m
          | none => m)
        ws.users }

/-- `WorkingSet::producesFor`. -/
def WorkingSet.producesFor (ws : WorkingSet) (n : Nat) : Bool :=
  (ws.users.find? fun e => e.1 = n).isSome

/-- `WorkingSet::consumesFrom`. -/
def WorkingSet.consumesFrom (g : MoveGraph) (ws : WorkingSet) (n : Nat) : Bool :=
  ws.nodes.any fun node => (g.usersOf n).contains node

/-- `WorkingSet::dependsOn`. -/
def WorkingSet.dependsOn (g : MoveGraph) (ws : WorkingSet) (n : Nat) : Bool :=
  match ws.nodes with
  | [] => false
  | mover :: _ =>
    if g.isAfter n mover then ws.producesFor n else ws.consumesFrom g n

/-- The nodes the scan loop of `tryMove` visits, in scan order: the nodes
strictly between the mover and the move point, walked backwards when the
mover is after the move point and forwards otherwise. -/
def MoveGraph.scanned (g : MoveGraph) (this mp : Nat) : List Nat :=
  let i := g.idxOf this
  let j := g.idxOf mp
  if g.isAfter this mp then ((g.ids.drop (j + 1)).take (i - j - 1)).reverse
  else (g.ids.drop (i + 1)).take (j - i - 1)

/-- `Node::removeFromList` (order-level view). -/
def MoveGraph.removeNode (g : MoveGraph) (n : Nat) : MoveGraph :=
  { g with order := g.order.filter fun e => e.1 ≠ n }

/-- `Node::move(movePoint, side)`: `removeFromList` then
`insertBefore`/`insertAfter` with `assignTopoPosition`. -/
def MoveGraph.moveNode (g : MoveGraph) (n target : Nat) (side : MoveSide) :
    MoveGraph :=
  let g := g.removeNode n
  let k := g.idxOf target + (if side = .after then 1 else 0)
  { g with order := insertNodeAt g.order k n }

/-- `Node::tryMove(movePoint, moveSide)`: scan from the mover toward the
move point growing the working set, decide whether the mover must be split
from its dependencies, fail when the (possibly split) working set depends
on the move point, and otherwise execute the moves.  Returns the C++
return value together with the resulting graph. -/
def tryMove (g : MoveGraph) (this movePoint : Nat) (side : MoveSide) :
    Bool × MoveGraph :=
  if this = movePoint then (true, g)
  else
    let ws0 := WorkingSet.seed g this
    let ws := (g.scanned this movePoint).foldl
      (fun ws c => if ws.dependsOn g c then ws.add g c else ws) ws0
    let splitThisAndDeps :=
      (side = .before ∧ g.isBefore this movePoint) ∨
      (side = .after ∧ g.isAfter this movePoint)
    let ws := if splitThisAndDeps then ws.eraseMover g else ws
    if ws.dependsOn g movePoint then (false, g)
    else if splitThisAndDeps then
      let g := g.moveNode this movePoint side
      let reversed : MoveSide := if side = .before then .after else .before
      let r := ws.nodes.foldl
        (fun (p : MoveGraph × Nat) toMove =>
          (p.1.moveNode toMove p.2 reversed, toMove)) (g, movePoint)
      (true, r.1)
    else
      let r := ws.nodes.foldl
        (fun (p : MoveGraph × Nat) toMove =>
          (p.1.moveNode toMove p.2 side, toMove)) (g, movePoint)
      (true, r.1)

/-- A one-node graph for the concrete `tryMove` run. -/
def exMoveGraph : MoveGraph := ⟨[(1, 0)], []⟩

/-- Concrete output lists for the `eraseOutput` runs: the first and third
outputs are unused, the second has one use. -/
def exOutputs : List IRValue := [⟨0, []⟩, ⟨1, [(5, 0)]⟩, ⟨2, []⟩]

end IR

namespace Types

/-- The closed variant of IR type kinds (`TypeKind` of `jit_type.h`, as
enumerated by the printer in `type.cpp`): dynamic tensor, sized tensor,
complete tensor (scalar kind, shape, stride), undefined tensor, the
primitive kinds, named type variables, and the container kinds. -/
inductive JType where
  | dynamic
  | tensor (scalarType dim : Nat)
  | completeTensor (scalarType : Nat) (sizes strides : List Int)
  | undefinedTensor
  | number
  | int
  | float
  | bool
  | none
  | string
  | generator
  | var (name : String)
  | tuple (elems : List JType)
  | list (elem : JType)
  | optional (elem : JType)
  | future (elem : JType)

mutual
/-- Structural equality of types (`Type::operator==`): kind and payload
match, containers compare element-wise. -/
def beqJ : JType → JType → Bool
  | .dynamic, .dynamic => true
  | .tensor s1 d1, .tensor s2 d2 => s1 == s2 && d1 == d2
  | .completeTensor s1 sz1 st1, .completeTensor s2 sz2 st2 =>
    s1 == s2 && sz1 == sz2 && st1 == st2
  | .undefinedTensor, .undefinedTensor => true
  | .number, .number => true
  | .int, .int => true
  | .float, .float => true
  | .bool, .bool => true
  | .none, .none => true
  | .string, .string => true
  | .generator, .generator => true
  | .var n1, .var n2 => n1 == n2
  | .tuple es1, .tuple es2 => beqL es1 es2
  | .list e1, .list e2 => beqJ e1 e2
  | .optional e1, .optional e2 => beqJ e1 e2
  | .future e1, .future e2 => beqJ e1 e2
  | _, _ => false
termination_by structural t => t

/-- Element-wise structural equality of type lists. -/
def beqL : List JType → List JType → Bool
  | [], [] => true
  | a :: r1, b :: r2 => beqJ a b && beqL r1 r2
  | _, _ => false
termination_by structural l => l
end

set_option maxHeartbeats 2000000 in
mutual
/-- `beqJ` decides propositional equality. -/
def beqJ_iff : (a b : JType) → (beqJ a b = true ↔ a = b)
  | .dynamic, b => by cases b <;> simp [beqJ]
  | .tensor s1 d1, b => by cases b <;> simp [beqJ]
  | .completeTensor s1 sz1 st1, b => by cases b <;> simp [beqJ, and_assoc]
  | .undefinedTensor, b => by cases b <;> simp [beqJ]
  | .number, b => by cases b <;> simp [beqJ]
  | .int, b => by cases b <;> simp [beqJ]
  | .float, b => by cases b <;> simp [beqJ]
  | .bool, b => by cases b <;> simp [beqJ]
  | .none, b => by cases b <;> simp [beqJ]
  | .string, b => by cases b <;> simp [beqJ]
  | .generator, b => by cases b <;> simp [beqJ]
  | .var n1, b => by cases b <;> simp [beqJ]
  | .tuple es1, b => by
    cases b
    case tuple es2 => simpa [beqJ] using beqL_iff es1 es2
    all_goals simp [beqJ]
  | .list e1, b => by
    cases b
    case list e2 => simpa [beqJ] using beqJ_iff e1 e2
    all_goals simp [beqJ]
  | .optional e1, b => by
    cases b
    case optional e2 => simpa [beqJ] using beqJ_iff e1 e2
    all_goals simp [beqJ]
  | .future e1, b => by
    cases b
    case future e2 => simpa [beqJ] using beqJ_iff e1 e2
    all_goals simp [beqJ]
termination_by structural a => a

/-- `beqL` decides propositional equality of lists. -/
def beqL_iff : (l1 l2 : List JType) → (beqL l1 l2 = true ↔ l1 = l2)
  | [], [] => by simp [beqL]
  | [], _ :: _ => by simp [beqL]
  | _ :: _, [] => by simp [beqL]
  | a :: r1, b :: r2 => by
    simp [beqL, beqJ_iff a b, beqL_iff r1 r2]
termination_by structural l1 => l1
end

instance : DecidableEq JType := fun a b => decidable_of_iff _ (beqJ_iff a b)

/-- Modelled from the spec: `Type::isSubtypeOf` lives in `jit_type.h`,
which is not among the sources; per the spec the type system is a closed
variant with structural subtype checking in which all tensor kinds fold
into the dynamic tensor kind, so the model takes structural equality
(`Type::operator==`) plus tensor-kinds-below-`DynamicType` as the subtype
relation. -/
def isSubtypeOf (t rhs : JType) : Bool :=
  if beqJ t rhs then true
  else
    match t, rhs with
    | .tensor _ _, .dynamic => true
    | .completeTensor _ _ _, .dynamic => true
    | .undefinedTensor, .dynamic => true
    | _, _ => false

mutual
/-- `c10::unifyTypes` (`type.cpp`): subtype refinements first, then the
tensor-to-dynamic fold, then `None`-with-concrete to `Optional`, then the
structural list/tuple cases. -/
def unifyTypes (t1 t2 : JType) : Option JType :=
  if isSubtypeOf t1 t2 then some t2
  else if isSubtypeOf t2 t1 then some t1
  else if isSubtypeOf t1 .dynamic && isSubtypeOf t2 .dynamic then some .dynamic
  else if isSubtypeOf t1 .none && !(isSubtypeOf t2 .none) then
    some (.optional t2)
  else if isSubtypeOf t2 .none && !(isSubtypeOf t1 .none) then
    some (.optional t1)
  else
    match t1, t2 with
    | .list e1, .list e2 =>
      match unifyTypes e1 e2 with
      | some u => some (.list u)
      | Option.none => Option.none
    | .tuple es1, .tuple es2 =>
      if es1.length = es2.length then (unifyList es1 es2).map JType.tuple
      else Option.none
    | _, _ => Option.none
termination_by structural t1

/-- The element-wise unification loop of the tuple case of `unifyTypes`. -/
def unifyList : List JType → List JType → Option (List JType)
  | [], [] => some []
  | a :: rest1, b :: rest2 =>
    match unifyTypes a b, unifyList rest1 rest2 with
    | some u, some us => some (u :: us)
    | _, _ => Option.none
  | _, _ => Option.none
termination_by structural l => l
end

end Types

namespace Alias

/-- Modelled from the spec: `c10::AliasInfo` lives in `alias_info.h`, which
is not among the sources; per the spec it carries a set of alias-set
symbols plus an is-wildcard flag. -/
structure AliasInfo where
  sets : List Nat
  isWildcard : Bool
deriving DecidableEq, Repr

/-- The default-constructed `AliasInfo` (what `valueToAlias_[v]` creates
for an absent value). -/
def AliasInfo.empty : AliasInfo := ⟨[], false⟩

/-- Insert a symbol into a set-as-list. -/
def addSetSym (s : List Nat) (x : Nat) : List Nat :=
  if x ∈ s then s else s ++ [x]

/-- `AliasInfo::addSet`. -/
def AliasInfo.addSet (a : AliasInfo) (x : Nat) : AliasInfo :=
  { a with sets := addSetSym a.sets x }

/-- Modelled from the spec: `AliasInfo::unionWith` — union of the symbol
sets, disjunction of the wildcard flags. -/
def AliasInfo.unionWith (a b : AliasInfo) : AliasInfo :=
  { sets := b.sets.foldl addSetSym a.sets,
    isWildcard := a.isWildcard || b.isWildcard }

/-- Modelled from the spec: `AliasInfo::isSubsetOf` — set inclusion of the
symbol sets and implication of the wildcard flags (any sound subset test is
reflexive, which is all the convergence analysis below relies on). -/
def AliasInfo.isSubsetOf (a b : AliasInfo) : Bool :=
  a.sets.all (fun x => decide (x ∈ b.sets)) && (!a.isWildcard || b.isWildcard)

/-- The `valueToAlias_` map of `AliasDb`: value id → alias info. -/
abbrev AState := List (Nat × AliasInfo)

/-- `valueToAlias_[v]` / `valueToAlias_.at(v)` with the default-constructed
info for absent values. -/
def getAlias (σ : AState) (v : Nat) : AliasInfo :=
  (Alloc.alookup v σ).getD AliasInfo.empty

/-- `AliasDb::addAlias(value, AliasInfo)`: union with the existing info,
or insert.  The modelled fragment contains only tensor-typed values, for
which `shouldAnnotate` is true. -/
def addAliasInfo (σ : AState) (v : Nat) (a : AliasInfo) : AState :=
  match Alloc.alookup v σ with
  | some _ => Alloc.aupdate v (fun old => old.unionWith a) σ
  | none => (v, a) :: σ

/-- `AliasDb::addAlias(value, from)`. -/
def addAliasValue (σ : AState) (v src : Nat) : AState :=
  addAliasInfo σ v (getAlias σ src)

/-- `AliasDb::mapAliases(to, from)`. -/
def mapAliases (σ : AState) (dst src : List Nat) : AState :=
  (dst.zip src).foldl (fun σ p => addAliasValue σ p.1 p.2) σ

/-- The loop-body node language of the modelled fragment: `chunk` nodes,
whose analysis (`analyzeChunk`) gives every output the input's alias
info — enough to express bodies that alias carried inputs to outputs. -/
inductive ANode where
  | chunk (input : Nat) (outputs : List Nat)
deriving DecidableEq, Repr

/-- The node dispatch of `AliasDb::analyze` restricted to the modelled
fragment (`analyzeChunk`: read the input's alias info, give it to every
output). -/
def analyzeNode (σ : AState) : ANode → AState
  | .chunk input outputs =>
    let a := getAlias σ input
    outputs.foldl (fun σ o => addAliasInfo σ o a) σ

/-- A block: input values (first is the trip count), output values (first
is the continuation condition), and the body nodes. -/
structure ABlock where
  inputs : List Nat
  outputs : List Nat
  nodes : List ANode
deriving DecidableEq, Repr

/-- `AliasDb::analyze(Block*)`: analyze the nodes in order. -/
def analyzeBlock (σ : AState) (b : ABlock) : AState :=
  b.nodes.foldl analyzeNode σ

/-- A `prim::Loop` node: inputs are `[max trip count, cond, carried…]`,
outputs mirror the carried values, and the body block's inputs/outputs
carry the trip counter / continuation condition first. -/
structure LoopNode where
  inputs : List Nat
  outputs : List Nat
  body : ABlock
deriving DecidableEq, Repr

/-- One iteration of the `while (notConverged)` loop of
`AliasDb::analyzeLoop`: copy carried-input aliases to the body's block
inputs, analyze the body, copy block outputs to the node outputs, then
merge block-output aliases into the carried inputs while computing the
`notConverged` flag — which compares `valueToAlias_[output]` with itself,
exactly as the source does.  Returns the new state and the flag. -/
def loopIter (n : LoopNode) (σ : AState) : AState × Bool :=
  let loopCarriedInputs := n.inputs.drop 2
  let blockInputs := n.body.inputs.drop 1
  let blockOutputs := n.body.outputs.drop 1
  let σ := mapAliases σ blockInputs loopCarriedInputs
  let σ := analyzeBlock σ n.body
  let σ := mapAliases σ n.outputs blockOutputs
  (List.range blockOutputs.length).foldl
    (fun (p : AState × Bool) i =>
      let input := loopCarriedInputs.getD i 0
      let output := blockOutputs.getD i 0
      let nc :=
        if (Alloc.alookup input p.1).isSome then
          if ! (getAlias p.1 output).isSubsetOf (getAlias p.1 output) then
            true
          else p.2
        else p.2
      (addAliasValue p.1 input output, nc))
    (σ, false)

/-- The `while (notConverged)` loop, modelled with fuel; since the flag
provably falls to `false` after every iteration, any positive fuel
computes the exact source behaviour. -/
def analyzeLoopGo (n : LoopNode) : Nat → AState → AState
  | 0, σ => σ
  | fuel + 1, σ =>
    let r := loopIter n σ
    if r.2 then analyzeLoopGo n fuel r.1 else r.1

/-- `AliasDb::analyzeLoop`. -/
def analyzeLoop (n : LoopNode) (σ : AState) : AState :=
  analyzeLoopGo n 1000000 σ

/-- A loop with three carried tensors whose body chunk-aliases carried
input 1 to outputs 1 and 2 and carried input 2 to output 3 — the shifting
alias chain that needs more than one iteration to reach a fixpoint. -/
def exLoop : LoopNode :=
  { inputs := [100, 101, 1, 2, 3]
    outputs := [10, 11, 12]
    body := { inputs := [50, 4, 5, 6]
              outputs := [51, 7, 8, 9]
              nodes := [.chunk 4 [7], .chunk 4 [8], .chunk 5 [9]] } }

/-- The seed aliases of the three carried inputs: `{1}`, `{2}`, `{3}`. -/
def exState : AState :=
  [(1, ⟨[1], false⟩), (2, ⟨[2], false⟩), (3, ⟨[3], false⟩)]

end Alias

/-- C2 (counterexample): `round_size` does not return the least multiple of
128 KiB at the largest `size_t` value: the unsigned addition wraps around and
the function returns `0`, which is smaller than the request. -/
theorem Alloc.round_size_overflow_cex :
    Alloc.round_size (2 ^ 64 - 1) = 0 ∧
    ¬ Alloc.IsLeastMultipleGE Alloc.kRoundLarge
        (Alloc.round_size (2 ^ 64 - 1)) (2 ^ 64 - 1) := by
  have h : Alloc.round_size (2 ^ 64 - 1) = 0 := by decide
  refine ⟨h, ?_⟩
  intro hle
  obtain ⟨-, h2, -⟩ := hle
  rw [h] at h2
  omega

/-- C2 (amended): for every requested size `s` whose rounded value does not
overflow `size_t` (`s ≤ 2 ^ 64 - kRoundLarge`), `round_size` returns 512 when
`s < 512`, the least multiple of 512 that is `≥ s` when `s < 1` MiB, and
otherwise the least multiple of 128 KiB that is `≥ s`. -/
theorem Alloc.round_size_spec (s : Nat) (hs : s ≤ 2 ^ 64 - Alloc.kRoundLarge) :
    (s < Alloc.kRoundSmall → Alloc.round_size s = Alloc.kRoundSmall) ∧
    (Alloc.kRoundSmall ≤ s → s < Alloc.kSmallAlloc →
      Alloc.IsLeastMultipleGE Alloc.kRoundSmall (Alloc.round_size s) s) ∧
    (Alloc.kSmallAlloc ≤ s →
      Alloc.IsLeastMultipleGE Alloc.kRoundLarge (Alloc.round_size s) s) := by
  unfold Alloc.round_size Alloc.IsLeastMultipleGE
      Alloc.kRoundSmall Alloc.kRoundLarge Alloc.kSmallAlloc at *
  refine ⟨?_, ?_, ?_⟩
  · intro h
    simp [h]
  · intro h1 h2
    have hlt : s + (512 - 1 - (s - 1) % 512) < 2 ^ 64 := by omega
    rw [if_neg (by omega), if_pos h2, Nat.mod_eq_of_lt hlt]
    refine ⟨by omega, by omega, ?_⟩
    intro m hm hsm
    omega
  · intro h1
    have hlt : s + (131072 - 1 - (s - 1) % 131072) < 2 ^ 64 := by omega
    rw [if_neg (by omega), if_neg (by omega), Nat.mod_eq_of_lt hlt]
    refine ⟨by omega, by omega, ?_⟩
    intro m hm hsm
    omega

/-- C2 (witness): `round_size_spec` applied at the concrete size 3. -/
theorem Alloc.round_size_spec_witness :
    3 ≤ 2 ^ 64 - Alloc.kRoundLarge ∧ 3 < Alloc.kRoundSmall ∧
    Alloc.round_size 3 = Alloc.kRoundSmall :=
  ⟨by decide, by decide, (Alloc.round_size_spec 3 (by decide)).1 (by decide)⟩

/-- C9: `free` with the null pointer is a silent no-op on every allocator
state: no error is surfaced and the state is returned unchanged. -/
theorem Alloc.free_null_noop (σ : Alloc.AllocState) :
    Alloc.free σ 0 = (none, σ) := rfl

/-- C6 (counterexample): the null pointer is not recorded in the
allocated-blocks map of the empty allocator, yet `free` surfaces no error
(it silently returns), contradicting the claim that every unrecorded
pointer produces an `InvalidPointer` error. -/
theorem Alloc.free_unrecorded_null_cex :
    Alloc.alookup 0 Alloc.AllocState.init.allocated_blocks = none ∧
    Alloc.free Alloc.AllocState.init 0 = (none, Alloc.AllocState.init) :=
  ⟨rfl, rfl⟩

/-- C6 (amended): for every non-null pointer that is not recorded in the
allocated-blocks map, `free` surfaces `InvalidPointer` and leaves the state
unchanged; for every recorded pointer, `free` surfaces no error. -/
theorem Alloc.free_invalid_pointer_spec (σ : Alloc.AllocState) (p : Nat) :
    (p ≠ 0 → Alloc.alookup p σ.allocated_blocks = none →
      Alloc.free σ p = (some .invalidPointer, σ)) ∧
    (∀ bid, Alloc.alookup p σ.allocated_blocks = some bid →
      (Alloc.free σ p).1 = none) := by
  constructor
  · intro hp hnone
    simp [Alloc.free, hp, hnone]
  · intro bid hsome
    by_cases hp : p = 0
    · subst hp
      simp [Alloc.free]
    · simp only [Alloc.free, if_neg hp, hsome]
      split <;> rfl

/-- C6 (witness): `free_invalid_pointer_spec` at pointer 5 of the empty
allocator (unrecorded: error) and at pointer 7 of `exAllocatedState`
(recorded: success). -/
theorem Alloc.free_invalid_pointer_spec_witness :
    Alloc.free Alloc.AllocState.init 5 =
      (some .invalidPointer, Alloc.AllocState.init) ∧
    (Alloc.free Alloc.exAllocatedState 7).1 = none :=
  ⟨(Alloc.free_invalid_pointer_spec Alloc.AllocState.init 5).1
      (by decide) (by decide),
   (Alloc.free_invalid_pointer_spec Alloc.exAllocatedState 7).2 1 (by decide)⟩

/-- C3 (counterexample): request 512 bytes against a cached 1024-byte block.
The leftover `1024 - 512 = 512` equals the small minimum-remainder
threshold and so does not exceed it, yet `malloc` splits: it hands out a
fresh 512-byte head block (id 2) and reinserts a 512-byte tail (id 1) into
the small pool, contradicting the claim that a split happens exactly when
the leftover exceeds the threshold. -/
theorem Alloc.malloc_split_at_threshold_cex :
    (Alloc.exCachedState.getBlock 1).size - Alloc.round_size 512 =
      Alloc.kRoundSmall ∧
    ¬ (Alloc.kRoundSmall <
        (Alloc.exCachedState.getBlock 1).size - Alloc.round_size 512) ∧
    Alloc.alookup 4096
      (Alloc.malloc Alloc.exEnv Alloc.exCachedState 512 0).2.1.allocated_blocks =
      some 2 ∧
    ((Alloc.malloc Alloc.exEnv Alloc.exCachedState 512 0).2.1.getBlock 2).size =
      512 ∧
    ((Alloc.malloc Alloc.exEnv Alloc.exCachedState 512 0).2.1.getBlock 2).next =
      some 1 ∧
    ((Alloc.malloc Alloc.exEnv Alloc.exCachedState 512 0).2.1.getBlock 1).size =
      512 ∧
    (Alloc.malloc Alloc.exEnv Alloc.exCachedState 512 0).2.1.small_blocks =
      [1] := by
  refine ⟨by decide, by decide, ?_, ?_, ?_, ?_, ?_⟩ <;> rfl

namespace Alloc

theorem alookup_aupdate_self {α : Type} (k : Nat) (f : α → α)
    (l : List (Nat × α)) : alookup k (aupdate k f l) = (alookup k l).map f := by
  induction l with
  | nil => rfl
  | cons e es ih =>
    obtain ⟨k1, v1⟩ := e
    unfold aupdate at ih ⊢
    simp only [List.map]
    by_cases h : k1 = k
    · subst h
      rw [show (if (k1, v1).1 = k1 then (k1, f v1) else (k1, v1)) = (k1, f v1)
        from if_pos rfl]
      simp [alookup]
    · rw [if_neg (by simpa using h)]
      simp [alookup, Ne.symm h, ih]

theorem alookup_aupdate_other {α : Type} (k k' : Nat) (f : α → α)
    (l : List (Nat × α)) (h : k' ≠ k) :
    alookup k' (aupdate k f l) = alookup k' l := by
  induction l with
  | nil => rfl
  | cons e es ih =>
    obtain ⟨k1, v1⟩ := e
    unfold aupdate at ih ⊢
    simp only [List.map]
    by_cases he : k1 = k
    · subst he
      rw [show (if (k1, v1).1 = k1 then (k1, f v1) else (k1, v1)) = (k1, f v1)
        from if_pos rfl]
      simp [alookup, h, ih]
    · rw [if_neg (by simpa using he)]
      simp [alookup, ih]

theorem getBlock_setBlock_same (σ : AllocState) (bid : Nat) (b : Block) :
    (σ.setBlock bid b).getBlock bid = b := by
  unfold AllocState.setBlock AllocState.getBlock
  by_cases h : (alookup bid σ.blocks).isSome
  · rw [if_pos h]
    simp only [alookup_aupdate_self]
    cases halt : alookup bid σ.blocks with
    | none => rw [halt] at h; simp at h
    | some a => simp [halt]
  · rw [if_neg h]
    simp [alookup]

theorem getBlock_setBlock_other (σ : AllocState) (bid bid' : Nat) (b : Block)
    (h : bid' ≠ bid) : (σ.setBlock bid b).getBlock bid' = σ.getBlock bid' := by
  unfold AllocState.setBlock AllocState.getBlock
  by_cases hs : (alookup bid σ.blocks).isSome
  · rw [if_pos hs, alookup_aupdate_other _ _ _ _ h]
  · rw [if_neg hs]
    simp [alookup, h]

theorem newBlock_snd (σ : AllocState) (b : Block) :
    (σ.newBlock b).2 = σ.nextId := rfl

theorem getBlock_newBlock_self (σ : AllocState) (b : Block) :
    (σ.newBlock b).1.getBlock σ.nextId = b := by
  simp [AllocState.newBlock, AllocState.getBlock, alookup]

theorem getBlock_newBlock_other (σ : AllocState) (b : Block) (bid : Nat)
    (h : bid ≠ σ.nextId) :
    (σ.newBlock b).1.getBlock bid = σ.getBlock bid := by
  simp [AllocState.newBlock, AllocState.getBlock, alookup, h]

theorem newBlock_small_blocks (σ : AllocState) (b : Block) :
    (σ.newBlock b).1.small_blocks = σ.small_blocks := rfl

theorem newBlock_large_blocks (σ : AllocState) (b : Block) :
    (σ.newBlock b).1.large_blocks = σ.large_blocks := rfl

theorem newBlock_allocated_blocks (σ : AllocState) (b : Block) :
    (σ.newBlock b).1.allocated_blocks = σ.allocated_blocks := rfl

theorem newBlock_device_stats (σ : AllocState) (b : Block) :
    (σ.newBlock b).1.device_stats = σ.device_stats := rfl

theorem newBlock_cuda_events (σ : AllocState) (b : Block) :
    (σ.newBlock b).1.cuda_events = σ.cuda_events := rfl

theorem setBlock_small_blocks (σ : AllocState) (bid : Nat) (b : Block) :
    (σ.setBlock bid b).small_blocks = σ.small_blocks := by
  unfold AllocState.setBlock
  split <;> rfl

theorem setBlock_large_blocks (σ : AllocState) (bid : Nat) (b : Block) :
    (σ.setBlock bid b).large_blocks = σ.large_blocks := by
  unfold AllocState.setBlock
  split <;> rfl

theorem setBlock_allocated_blocks (σ : AllocState) (bid : Nat) (b : Block) :
    (σ.setBlock bid b).allocated_blocks = σ.allocated_blocks := by
  unfold AllocState.setBlock
  split <;> rfl

theorem setBlock_device_stats (σ : AllocState) (bid : Nat) (b : Block) :
    (σ.setBlock bid b).device_stats = σ.device_stats := by
  unfold AllocState.setBlock
  split <;> rfl

theorem setBlock_nextId (σ : AllocState) (bid : Nat) (b : Block) :
    (σ.setBlock bid b).nextId = σ.nextId := by
  unfold AllocState.setBlock
  split <;> rfl

theorem setBlock_cuda_events (σ : AllocState) (bid : Nat) (b : Block) :
    (σ.setBlock bid b).cuda_events = σ.cuda_events := by
  unfold AllocState.setBlock
  split <;> rfl

theorem setBlock_nextEvent (σ : AllocState) (bid : Nat) (b : Block) :
    (σ.setBlock bid b).nextEvent = σ.nextEvent := by
  unfold AllocState.setBlock
  split <;> rfl

theorem setStats_small_blocks (σ : AllocState) (d : Nat)
    (f : DeviceStats → DeviceStats) :
    (σ.setStats d f).small_blocks = σ.small_blocks := by
  unfold AllocState.setStats
  split <;> rfl

theorem setStats_large_blocks (σ : AllocState) (d : Nat)
    (f : DeviceStats → DeviceStats) :
    (σ.setStats d f).large_blocks = σ.large_blocks := by
  unfold AllocState.setStats
  split <;> rfl

theorem setStats_allocated_blocks (σ : AllocState) (d : Nat)
    (f : DeviceStats → DeviceStats) :
    (σ.setStats d f).allocated_blocks = σ.allocated_blocks := by
  unfold AllocState.setStats
  split <;> rfl

theorem setStats_blocks (σ : AllocState) (d : Nat)
    (f : DeviceStats → DeviceStats) :
    (σ.setStats d f).blocks = σ.blocks := by
  unfold AllocState.setStats
  split <;> rfl

theorem setStats_cuda_events (σ : AllocState) (d : Nat)
    (f : DeviceStats → DeviceStats) :
    (σ.setStats d f).cuda_events = σ.cuda_events := by
  unfold AllocState.setStats
  split <;> rfl

theorem getBlock_setStats (σ : AllocState) (d : Nat)
    (f : DeviceStats → DeviceStats) (bid : Nat) :
    (σ.setStats d f).getBlock bid = σ.getBlock bid := by
  unfold AllocState.getBlock
  rw [setStats_blocks]

theorem poolInsert_blocks (σ : AllocState) (small : Bool) (bid : Nat) :
    (σ.poolInsert small bid).blocks = σ.blocks := by
  unfold AllocState.poolInsert
  split <;> rfl

theorem poolInsert_allocated_blocks (σ : AllocState) (small : Bool) (bid : Nat) :
    (σ.poolInsert small bid).allocated_blocks = σ.allocated_blocks := by
  unfold AllocState.poolInsert
  split <;> rfl

theorem poolInsert_device_stats (σ : AllocState) (small : Bool) (bid : Nat) :
    (σ.poolInsert small bid).device_stats = σ.device_stats := by
  unfold AllocState.poolInsert
  split <;> rfl

theorem getBlock_poolInsert (σ : AllocState) (small : Bool) (bid bid' : Nat) :
    (σ.poolInsert small bid).getBlock bid' = σ.getBlock bid' := by
  unfold AllocState.getBlock
  rw [poolInsert_blocks]

theorem mem_poolInsertList (σ : AllocState) (bid : Nat) (l : List Nat) :
    bid ∈ poolInsertList σ bid l := by
  induction l with
  | nil => simp [poolInsertList]
  | cons x xs ih =>
    unfold poolInsertList
    split
    · exact List.mem_cons_self _ _
    · exact List.mem_cons_of_mem _ ih

theorem mem_poolInsert (σ : AllocState) (small : Bool) (bid : Nat) :
    bid ∈ (if small then (σ.poolInsert small bid).small_blocks
           else (σ.poolInsert small bid).large_blocks) := by
  unfold AllocState.poolInsert
  cases small <;> simp [mem_poolInsertList]

theorem recordAllocated_getBlock (σ : AllocState) (p bid bid' : Nat) :
    (σ.recordAllocated p bid).getBlock bid' = σ.getBlock bid' := rfl

theorem recordAllocated_small_blocks (σ : AllocState) (p bid : Nat) :
    (σ.recordAllocated p bid).small_blocks = σ.small_blocks := rfl

theorem recordAllocated_large_blocks (σ : AllocState) (p bid : Nat) :
    (σ.recordAllocated p bid).large_blocks = σ.large_blocks := rfl

theorem recordAllocated_allocated_blocks (σ : AllocState) (p bid : Nat) :
    (σ.recordAllocated p bid).allocated_blocks =
      (p, bid) :: σ.allocated_blocks := rfl

theorem recordAllocated_device_stats (σ : AllocState) (p bid : Nat) :
    (σ.recordAllocated p bid).device_stats = σ.device_stats := rfl

theorem eraseAllocated_getBlock (σ : AllocState) (p bid : Nat) :
    (σ.eraseAllocated p).getBlock bid = σ.getBlock bid := rfl

theorem eraseAllocated_device_stats (σ : AllocState) (p : Nat) :
    (σ.eraseAllocated p).device_stats = σ.device_stats := rfl

theorem pushEvent_getBlock (σ : AllocState) (bid bid' : Nat) :
    (σ.pushEvent bid).getBlock bid' = σ.getBlock bid' := rfl

theorem pushEvent_device_stats (σ : AllocState) (bid : Nat) :
    (σ.pushEvent bid).device_stats = σ.device_stats := rfl

theorem setQueue_getBlock (σ : AllocState) (q : List (Nat × Nat)) (bid : Nat) :
    (σ.setQueue q).getBlock bid = σ.getBlock bid := rfl

theorem setQueue_device_stats (σ : AllocState) (q : List (Nat × Nat)) :
    (σ.setQueue q).device_stats = σ.device_stats := rfl

end Alloc

/-- C3 (amended): after a block (of size `B = blk.size`) has been chosen for
a rounded request of `size`, `malloc` splits it exactly when the leftover
`B - size` is at least the minimum-remainder threshold — 512 bytes for
small requests (rounded size ≤ 1 MiB) and 1 MiB + 1 bytes for large ones
(the original claim said "exceeds"; the code compares with `>=`).  On a
split the allocated head has size `size` and keeps the block's pointer, the
free tail has size `B - size`, head and tail are doubly linked through
`prev`/`next`, and the tail is reinserted into the free pool; otherwise the
whole block is allocated unsplit and the pools are untouched. -/
theorem Alloc.malloc_split_spec
    (σ : Alloc.AllocState) (device stream size bid : Nat) (small : Bool)
    (blk : Alloc.Block)
    (hsm : small = decide (size ≤ Alloc.kSmallAlloc))
    (hblk : σ.getBlock bid = blk)
    (hsize : size ≤ blk.size)
    (hfree : blk.allocated = false)
    (hfresh : bid ≠ σ.nextId)
    (hself : blk.prev ≠ some bid)
    (hpfresh : blk.prev ≠ some σ.nextId) :
    ((if small then Alloc.kRoundSmall else Alloc.kSmallAlloc + 1) ≤
        blk.size - size →
      (Alloc.mallocFinish σ device stream size small bid).1 = none ∧
      (Alloc.mallocFinish σ device stream size small bid).2.2 = blk.ptr ∧
      (Alloc.mallocFinish σ device stream size small bid).2.1.getBlock σ.nextId =
        ⟨device, stream, [], size, blk.ptr, true, blk.prev, some bid, 0⟩ ∧
      ((Alloc.mallocFinish σ device stream size small bid).2.1.getBlock bid).size =
        blk.size - size ∧
      ((Alloc.mallocFinish σ device stream size small bid).2.1.getBlock bid).prev =
        some σ.nextId ∧
      ((Alloc.mallocFinish σ device stream size small bid).2.1.getBlock bid).ptr =
        blk.ptr + size ∧
      ((Alloc.mallocFinish σ device stream size small bid).2.1.getBlock bid).allocated =
        false ∧
      bid ∈ (if small then
              (Alloc.mallocFinish σ device stream size small bid).2.1.small_blocks
            else
              (Alloc.mallocFinish σ device stream size small bid).2.1.large_blocks) ∧
      Alloc.alookup blk.ptr
        (Alloc.mallocFinish σ device stream size small bid).2.1.allocated_blocks =
        some σ.nextId) ∧
    (blk.size - size < (if small then Alloc.kRoundSmall else Alloc.kSmallAlloc + 1) →
      (Alloc.mallocFinish σ device stream size small bid).1 = none ∧
      (Alloc.mallocFinish σ device stream size small bid).2.2 = blk.ptr ∧
      (Alloc.mallocFinish σ device stream size small bid).2.1.getBlock bid =
        { blk with allocated := true } ∧
      Alloc.alookup blk.ptr
        (Alloc.mallocFinish σ device stream size small bid).2.1.allocated_blocks =
        some bid ∧
      (Alloc.mallocFinish σ device stream size small bid).2.1.small_blocks =
        σ.small_blocks ∧
      (Alloc.mallocFinish σ device stream size small bid).2.1.large_blocks =
        σ.large_blocks) := by
  have hfresh' : σ.nextId ≠ bid := Ne.symm hfresh
  constructor
  · intro hcond
    cases hprev : blk.prev with
    | none =>
      refine ⟨?_, ?_, ?_, ?_, ?_, ?_, ?_, ?_, ?_⟩
      all_goals simp only [Alloc.mallocFinish, Alloc.splitStep, hblk, hprev,
        ge_iff_le]
      all_goals rw [if_pos hcond]
      all_goals simp [hblk, hfree, hfresh, hfresh', Alloc.getBlock_setStats, Alloc.getBlock_poolInsert,
          Alloc.getBlock_setBlock_same, Alloc.getBlock_setBlock_other,
          Alloc.getBlock_newBlock_self, Alloc.getBlock_newBlock_other,
          Alloc.newBlock_snd, Alloc.recordAllocated_getBlock,
          Alloc.setStats_allocated_blocks, Alloc.setBlock_allocated_blocks,
          Alloc.poolInsert_allocated_blocks, Alloc.newBlock_allocated_blocks,
          Alloc.recordAllocated_allocated_blocks, Alloc.setBlock_small_blocks,
          Alloc.setBlock_large_blocks, Alloc.setStats_small_blocks,
          Alloc.setStats_large_blocks, Alloc.newBlock_small_blocks,
          Alloc.newBlock_large_blocks, Alloc.recordAllocated_small_blocks,
          Alloc.recordAllocated_large_blocks, Alloc.mem_poolInsert,
          Alloc.Block.mk0, Alloc.alookup]
    | some p =>
      have hbp : p ≠ bid := by
        intro h
        exact hself (by rw [hprev, h])
      have hpn : p ≠ σ.nextId := by
        intro h
        exact hpfresh (by rw [hprev, h])
      have hbp' : bid ≠ p := Ne.symm hbp
      have hpn' : σ.nextId ≠ p := Ne.symm hpn
      refine ⟨?_, ?_, ?_, ?_, ?_, ?_, ?_, ?_, ?_⟩
      all_goals simp only [Alloc.mallocFinish, Alloc.splitStep, hblk, hprev,
        ge_iff_le]
      all_goals rw [if_pos hcond]
      all_goals simp [hblk, hfree, hfresh, hfresh', hbp, hbp', hpn, hpn',
          Alloc.getBlock_setStats, Alloc.getBlock_poolInsert,
          Alloc.getBlock_setBlock_same, Alloc.getBlock_setBlock_other,
          Alloc.getBlock_newBlock_self, Alloc.getBlock_newBlock_other,
          Alloc.newBlock_snd, Alloc.recordAllocated_getBlock,
          Alloc.setStats_allocated_blocks, Alloc.setBlock_allocated_blocks,
          Alloc.poolInsert_allocated_blocks, Alloc.newBlock_allocated_blocks,
          Alloc.recordAllocated_allocated_blocks, Alloc.setBlock_small_blocks,
          Alloc.setBlock_large_blocks, Alloc.setStats_small_blocks,
          Alloc.setStats_large_blocks, Alloc.newBlock_small_blocks,
          Alloc.newBlock_large_blocks, Alloc.recordAllocated_small_blocks,
          Alloc.recordAllocated_large_blocks, Alloc.mem_poolInsert,
          Alloc.Block.mk0, Alloc.alookup]
  · intro hcond
    refine ⟨?_, ?_, ?_, ?_, ?_, ?_⟩
    all_goals simp only [Alloc.mallocFinish, Alloc.splitStep, hblk, ge_iff_le]
    all_goals rw [if_neg (by omega)]
    all_goals simp [hblk, hfree, Alloc.getBlock_setStats,
        Alloc.getBlock_setBlock_same,
        Alloc.recordAllocated_getBlock, Alloc.setStats_allocated_blocks,
        Alloc.setBlock_allocated_blocks, Alloc.recordAllocated_allocated_blocks,
        Alloc.setBlock_small_blocks, Alloc.setBlock_large_blocks,
        Alloc.setStats_small_blocks, Alloc.setStats_large_blocks,
        Alloc.recordAllocated_small_blocks, Alloc.recordAllocated_large_blocks,
        Alloc.alookup]

/-- C3 (witness): `malloc_split_spec` at the concrete cached-1024-byte-block
state with a 512-byte request: the head handed out is the fresh 512-byte
block and the 512-byte tail keeps block id 1. -/
theorem Alloc.malloc_split_spec_witness :
    (Alloc.mallocFinish Alloc.exCachedState 0 0 512 true 1).2.1.getBlock
        Alloc.exCachedState.nextId =
      ⟨0, 0, [], 512, Alloc.exCachedBlock.ptr, true, Alloc.exCachedBlock.prev,
        some 1, 0⟩ ∧
    ((Alloc.mallocFinish Alloc.exCachedState 0 0 512 true 1).2.1.getBlock 1).size =
      Alloc.exCachedBlock.size - 512 :=
  have h := Alloc.malloc_split_spec Alloc.exCachedState 0 0 512 1 true
    Alloc.exCachedBlock (by decide) (by decide) (by decide) (by decide)
    (by decide) (by decide) (by decide)
  ⟨(h.1 (by decide)).2.2.1, (h.1 (by decide)).2.2.2.1⟩

namespace Alloc

theorem poolErase_device_stats (σ : AllocState) (small : Bool) (bid : Nat) :
    (σ.poolErase small bid).device_stats = σ.device_stats := by
  unfold AllocState.poolErase
  split <;> rfl

theorem poolErase_blocks (σ : AllocState) (small : Bool) (bid : Nat) :
    (σ.poolErase small bid).blocks = σ.blocks := by
  unfold AllocState.poolErase
  split <;> rfl

theorem getBlock_poolErase (σ : AllocState) (small : Bool) (bid bid' : Nat) :
    (σ.poolErase small bid).getBlock bid' = σ.getBlock bid' := by
  unfold AllocState.getBlock
  rw [poolErase_blocks]

theorem removeBlock_device_stats (σ : AllocState) (bid : Nat) :
    (σ.removeBlock bid).device_stats = σ.device_stats := rfl

theorem getStats_setStats (σ : AllocState) (d d' : Nat)
    (f : DeviceStats → DeviceStats) :
    (σ.setStats d' f).get_stats_for_device d =
      if d = d' then f (σ.get_stats_for_device d')
      else σ.get_stats_for_device d := by
  unfold AllocState.setStats AllocState.get_stats_for_device
  by_cases hs : (alookup d' σ.device_stats).isSome
  · rw [if_pos hs]
    by_cases hd : d = d'
    · subst hd
      simp only [alookup_aupdate_self]
      cases h : alookup d σ.device_stats with
      | none => rw [h] at hs; simp at hs
      | some a => simp [h]
    · simp only [alookup_aupdate_other _ _ _ _ hd, if_neg hd]
  · rw [if_neg hs]
    by_cases hd : d = d'
    · subst hd
      cases h : alookup d σ.device_stats with
      | none => simp [alookup, h]
      | some a => rw [h] at hs; simp at hs
    · simp [alookup, hd]

theorem amount_congr (σ σ' : AllocState) (d : Nat)
    (h : σ'.device_stats = σ.device_stats) :
    amountAllocated σ' d = amountAllocated σ d := by
  unfold amountAllocated AllocState.get_stats_for_device
  rw [h]

theorem amount_setStats_preserve (σ : AllocState) (d d' : Nat)
    (f : DeviceStats → DeviceStats)
    (hf : ∀ s, (f s).amount_allocated = s.amount_allocated) :
    amountAllocated (σ.setStats d' f) d = amountAllocated σ d := by
  unfold amountAllocated
  rw [getStats_setStats]
  split
  · rename_i h
    subst h
    rw [hf]
  · rfl

theorem amount_setStats_increaseAllocated (σ : AllocState) (d : Nat) (n : Nat) :
    amountAllocated (σ.setStats d (·.increaseAllocated n)) d =
      amountAllocated σ d + n := by
  unfold amountAllocated
  rw [getStats_setStats]
  simp [DeviceStats.increaseAllocated]

theorem amount_setStats_decreaseAllocated (σ : AllocState) (d : Nat) (n : Nat) :
    amountAllocated (σ.setStats d (·.decreaseAllocated n)) d =
      amountAllocated σ d - n := by
  unfold amountAllocated
  rw [getStats_setStats]
  simp [DeviceStats.decreaseAllocated]

theorem try_merge_device_stats (σ : AllocState) (dst : Nat)
    (srcOpt : Option Nat) (small : Bool) :
    (try_merge_blocks σ dst srcOpt small).device_stats = σ.device_stats := by
  cases srcOpt with
  | none => rfl
  | some src =>
    simp only [try_merge_blocks]
    repeat' split
    all_goals simp [removeBlock_device_stats, poolErase_device_stats,
      setBlock_device_stats]

theorem free_block_device_stats (σ : AllocState) (bid : Nat) :
    (free_block σ bid).device_stats = σ.device_stats := by
  unfold free_block
  rw [poolInsert_device_stats, try_merge_device_stats, try_merge_device_stats]

theorem insert_events_device_stats (σ : AllocState) (bid : Nat) :
    (insert_events σ bid).device_stats = σ.device_stats := by
  unfold insert_events
  generalize (σ.getBlock bid).stream_uses = streams
  rw [show ∀ σ0 : AllocState,
      (streams.foldl (fun σ _stream =>
        let b := σ.getBlock bid
        let σ := σ.setBlock bid { b with event_count := b.event_count + 1 }
        σ.pushEvent bid) σ0).device_stats = σ0.device_stats from ?_,
    setBlock_device_stats]
  intro σ0
  induction streams generalizing σ0 with
  | nil => rfl
  | cons s rest ih =>
    rw [List.foldl_cons, ih]
    simp [pushEvent_device_stats, setBlock_device_stats]

theorem process_events_go_device_stats (ready : Nat → Bool)
    (q : List (Nat × Nat)) (σ : AllocState) :
    (process_events_go ready q σ).device_stats = σ.device_stats := by
  induction q generalizing σ with
  | nil => rfl
  | cons e rest ih =>
    obtain ⟨ev, bid⟩ := e
    unfold process_events_go
    split
    · rw [ih]
      split <;> simp [free_block_device_stats, setBlock_device_stats]
    · rfl

theorem process_events_device_stats (ready : Nat → Bool) (σ : AllocState) :
    (process_events ready σ).device_stats = σ.device_stats := by
  unfold process_events
  rw [process_events_go_device_stats]

theorem splitStep_device_stats (σ : AllocState)
    (device stream size : Nat) (small : Bool) (bid : Nat) :
    (splitStep σ device stream size small bid).1.device_stats =
      σ.device_stats := by
  simp only [splitStep]
  repeat' split
  all_goals simp [poolInsert_device_stats, setBlock_device_stats,
    newBlock_device_stats]

end Alloc

namespace Alloc

theorem amount_setBlock (σ : AllocState) (bid : Nat) (b : Block) (d : Nat) :
    amountAllocated (σ.setBlock bid b) d = amountAllocated σ d :=
  amount_congr σ _ d (setBlock_device_stats σ bid b)

theorem amount_poolInsert (σ : AllocState) (small : Bool) (bid d : Nat) :
    amountAllocated (σ.poolInsert small bid) d = amountAllocated σ d :=
  amount_congr σ _ d (poolInsert_device_stats σ small bid)

theorem amount_poolErase (σ : AllocState) (small : Bool) (bid d : Nat) :
    amountAllocated (σ.poolErase small bid) d = amountAllocated σ d :=
  amount_congr σ _ d (poolErase_device_stats σ small bid)

theorem amount_removeBlock (σ : AllocState) (bid d : Nat) :
    amountAllocated (σ.removeBlock bid) d = amountAllocated σ d :=
  amount_congr σ _ d (removeBlock_device_stats σ bid)

theorem amount_newBlock (σ : AllocState) (b : Block) (d : Nat) :
    amountAllocated (σ.newBlock b).1 d = amountAllocated σ d :=
  amount_congr σ _ d (newBlock_device_stats σ b)

theorem amount_recordAllocated (σ : AllocState) (p bid d : Nat) :
    amountAllocated (σ.recordAllocated p bid) d = amountAllocated σ d :=
  amount_congr σ _ d (recordAllocated_device_stats σ p bid)

theorem amount_eraseAllocated (σ : AllocState) (p d : Nat) :
    amountAllocated (σ.eraseAllocated p) d = amountAllocated σ d :=
  amount_congr σ _ d (eraseAllocated_device_stats σ p)

theorem amount_free_block (σ : AllocState) (bid d : Nat) :
    amountAllocated (free_block σ bid) d = amountAllocated σ d :=
  amount_congr σ _ d (free_block_device_stats σ bid)

theorem amount_insert_events (σ : AllocState) (bid d : Nat) :
    amountAllocated (insert_events σ bid) d = amountAllocated σ d :=
  amount_congr σ _ d (insert_events_device_stats σ bid)

theorem amount_process_events (ready : Nat → Bool) (σ : AllocState) (d : Nat) :
    amountAllocated (process_events ready σ) d = amountAllocated σ d :=
  amount_congr σ _ d (process_events_device_stats ready σ)

theorem amount_splitStep (σ : AllocState)
    (device stream size : Nat) (small : Bool) (bid d : Nat) :
    amountAllocated (splitStep σ device stream size small bid).1 d =
      amountAllocated σ d :=
  amount_congr σ _ d (splitStep_device_stats σ device stream size small bid)

theorem amount_cudaFreeSweep (σ : AllocState) (small : Bool) (device d : Nat) :
    amountAllocated (cudaFreeSweep σ small device) d = amountAllocated σ d := by
  unfold cudaFreeSweep
  generalize (if small then σ.small_blocks else σ.large_blocks) = pool
  induction pool generalizing σ with
  | nil => rfl
  | cons b rest ih =>
    rw [List.foldl_cons, ih]
    simp only []
    split
    · rw [amount_removeBlock, amount_poolErase]
      exact amount_setStats_preserve σ d ((σ.getBlock b).device)
        (fun x => x.decreaseCached ((σ.getBlock b).size)) (fun s => rfl)
    · rfl

theorem amount_free_cached_blocks (σ : AllocState) (device d : Nat) :
    amountAllocated (free_cached_blocks σ device) d = amountAllocated σ d := by
  unfold free_cached_blocks
  rw [amount_cudaFreeSweep, amount_cudaFreeSweep]

theorem poolFind_device_stream (σ : AllocState) (small : Bool)
    (device stream size bid : Nat)
    (h : σ.poolFind small device stream size = some bid) :
    (σ.getBlock bid).device = device ∧ (σ.getBlock bid).stream = stream := by
  simp only [AllocState.poolFind] at h
  cases hf : (if small then σ.small_blocks else σ.large_blocks).find?
      fun bid => ! BlockComparator (σ.getBlock bid) (Block.mk0 device stream size 0) with
  | none =>
    simp only [hf] at h
    exact Option.noConfusion h
  | some c =>
    simp only [hf] at h
    split at h
    · rename_i hc
      cases h
      exact hc
    · cases h

/-- The block handed out by `splitStep` always carries the requesting
device (either it is the freshly carved head, constructed with that device,
or it is the unsplit chosen block, whose device the caller checked). -/
theorem splitStep_block_device (σ : AllocState)
    (device stream size : Nat) (small : Bool) (bid : Nat)
    (hdev : (σ.getBlock bid).device = device) :
    ((splitStep σ device stream size small bid).1.getBlock
      (splitStep σ device stream size small bid).2).device = device := by
  simp only [splitStep, ge_iff_le]
  by_cases hc : (if small then kRoundSmall else kSmallAlloc + 1) ≤
      (σ.getBlock bid).size - size
  · rw [if_pos hc]
    simp only [newBlock_snd]
    by_cases hb : bid = σ.nextId
    · subst hb
      cases hp : (σ.getBlock σ.nextId).prev with
      | none =>
        simp [hp, getBlock_poolInsert, getBlock_setBlock_same,
          getBlock_newBlock_self, Block.mk0]
      | some p =>
        by_cases hp2 : p = σ.nextId
        · subst hp2
          simp [hp, getBlock_poolInsert, getBlock_setBlock_same,
            getBlock_newBlock_self, Block.mk0]
        · simp [hp, getBlock_poolInsert, getBlock_setBlock_same,
            getBlock_setBlock_other, getBlock_newBlock_self, Block.mk0,
            Ne.symm hp2]
    · have hb' : σ.nextId ≠ bid := Ne.symm hb
      cases hp : (σ.getBlock bid).prev with
      | none =>
        simp [hp, getBlock_poolInsert, getBlock_setBlock_other, hb',
          getBlock_newBlock_self, Block.mk0]
      | some p =>
        by_cases hp2 : p = σ.nextId
        · subst hp2
          simp [hp, getBlock_poolInsert, getBlock_setBlock_other, hb',
            getBlock_setBlock_same, getBlock_newBlock_self, Block.mk0]
        · simp [hp, getBlock_poolInsert, getBlock_setBlock_other, hb',
            Ne.symm hp2, getBlock_newBlock_self, Block.mk0]
  · rw [if_neg hc]
    exact hdev

end Alloc

namespace Alloc

theorem mallocFinish_spec (σ : AllocState) (device stream size : Nat)
    (small : Bool) (bid : Nat) :
    (mallocFinish σ device stream size small bid).1 = none ∧
    (mallocFinish σ device stream size small bid).2.2 =
      ((splitStep σ device stream size small bid).1.getBlock
        (splitStep σ device stream size small bid).2).ptr ∧
    alookup (mallocFinish σ device stream size small bid).2.2
        (mallocFinish σ device stream size small bid).2.1.allocated_blocks =
      some (splitStep σ device stream size small bid).2 ∧
    (mallocFinish σ device stream size small bid).2.1.getBlock
        (splitStep σ device stream size small bid).2 =
      { (splitStep σ device stream size small bid).1.getBlock
          (splitStep σ device stream size small bid).2 with
            allocated := true } ∧
    amountAllocated (mallocFinish σ device stream size small bid).2.1 device =
      amountAllocated σ device +
        ((splitStep σ device stream size small bid).1.getBlock
          (splitStep σ device stream size small bid).2).size := by
  refine ⟨rfl, rfl, ?_, ?_, ?_⟩
  · simp only [mallocFinish, setStats_allocated_blocks,
      recordAllocated_allocated_blocks]
    simp [alookup]
  · simp only [mallocFinish, getBlock_setStats, recordAllocated_getBlock,
      getBlock_setBlock_same]
  · simp only [mallocFinish]
    rw [amount_setStats_increaseAllocated, amount_recordAllocated,
      amount_setBlock, amount_splitStep]

theorem free_recorded_amount (σ : AllocState) (p bid : Nat)
    (hp : p ≠ 0) (hrec : alookup p σ.allocated_blocks = some bid) :
    (free σ p).1 = none ∧
    amountAllocated (free σ p).2 ((σ.getBlock bid).device) =
      amountAllocated σ ((σ.getBlock bid).device) - (σ.getBlock bid).size := by
  constructor
  · simp only [free, if_neg hp, hrec]
    split <;> rfl
  · simp only [free, if_neg hp, hrec, eraseAllocated_getBlock]
    split
    · rw [amount_insert_events, amount_setStats_decreaseAllocated,
        amount_setBlock, amount_eraseAllocated]
    · rw [amount_free_block, amount_setStats_decreaseAllocated,
        amount_setBlock, amount_eraseAllocated]

/-- Every successful `malloc` run factors through `mallocFinish` on a state
whose chosen block carries the current device, with `amount_allocated`
untouched by the preparatory steps (event processing, cache eviction,
`cudaMalloc` bookkeeping). -/
theorem malloc_success_shape (env : CudaEnv) (σ0 : AllocState)
    (size0 stream : Nat)
    (hok : (malloc env σ0 size0 stream).1 = none) :
    ∃ σpre bid,
      malloc env σ0 size0 stream =
        mallocFinish σpre env.curDevice stream (round_size size0)
          (decide (round_size size0 ≤ kSmallAlloc)) bid ∧
      (σpre.getBlock bid).device = env.curDevice ∧
      amountAllocated σpre env.curDevice = amountAllocated σ0 env.curDevice := by
  cases hfind : (process_events env.eventQueryReady σ0).poolFind
      (decide (round_size size0 ≤ kSmallAlloc)) env.curDevice stream
      (round_size size0) with
  | some bid =>
    refine ⟨(process_events env.eventQueryReady σ0).poolErase
        (decide (round_size size0 ≤ kSmallAlloc)) bid, bid, ?_, ?_, ?_⟩
    · simp only [malloc, hfind]
    · rw [getBlock_poolErase]
      exact (poolFind_device_stream _ _ _ _ _ _ hfind).1
    · rw [amount_poolErase, amount_process_events]
  | none =>
    cases hres : env.mallocResult with
    | none =>
      simp only [malloc, hfind, hres] at hok
      exact Option.noConfusion hok
    | some pr =>
      obtain ⟨retried, ptr⟩ := pr
      refine ⟨(((if retried then
            free_cached_blocks (process_events env.eventQueryReady σ0)
              env.curDevice
          else process_events env.eventQueryReady σ0).setStats env.curDevice
            (·.increaseCached (if round_size size0 ≤ kSmallAlloc
              then kSmallAlloc else round_size size0))).newBlock
          (Block.mk0 env.curDevice stream
            (if round_size size0 ≤ kSmallAlloc then kSmallAlloc
             else round_size size0) ptr)).1,
        (((if retried then
            free_cached_blocks (process_events env.eventQueryReady σ0)
              env.curDevice
          else process_events env.eventQueryReady σ0).setStats env.curDevice
            (·.increaseCached (if round_size size0 ≤ kSmallAlloc
              then kSmallAlloc else round_size size0))).newBlock
          (Block.mk0 env.curDevice stream
            (if round_size size0 ≤ kSmallAlloc then kSmallAlloc
             else round_size size0) ptr)).2,
        ?_, ?_, ?_⟩
      · simp only [malloc, hfind, hres]
      · rw [newBlock_snd, getBlock_newBlock_self]
        rfl
      · rw [amount_newBlock,
          amount_setStats_preserve _ env.curDevice env.curDevice
            (·.increaseCached (if round_size size0 ≤ kSmallAlloc
              then kSmallAlloc else round_size size0)) (fun s => rfl)]
        split
        · rw [amount_free_cached_blocks, amount_process_events]
        · rw [amount_process_events]

end Alloc

/-- C8: for every successful `malloc` (no error, non-null pointer returned),
freeing the returned pointer immediately afterwards succeeds, `malloc`
increased the device's `amount_allocated` by exactly the allocated block's
size `B`, `free` decreased it by exactly `B`, and the statistic returns to
its value before the allocation. -/
theorem Alloc.malloc_free_amount (env : Alloc.CudaEnv) (σ0 : Alloc.AllocState)
    (size0 stream : Nat)
    (hok : (Alloc.malloc env σ0 size0 stream).1 = none)
    (hp : (Alloc.malloc env σ0 size0 stream).2.2 ≠ 0) :
    (Alloc.free (Alloc.malloc env σ0 size0 stream).2.1
      (Alloc.malloc env σ0 size0 stream).2.2).1 = none ∧
    ∃ B,
      Alloc.amountAllocated (Alloc.malloc env σ0 size0 stream).2.1
          env.curDevice =
        Alloc.amountAllocated σ0 env.curDevice + B ∧
      Alloc.amountAllocated (Alloc.free (Alloc.malloc env σ0 size0 stream).2.1
          (Alloc.malloc env σ0 size0 stream).2.2).2 env.curDevice =
        Alloc.amountAllocated (Alloc.malloc env σ0 size0 stream).2.1
          env.curDevice - B ∧
      Alloc.amountAllocated (Alloc.free (Alloc.malloc env σ0 size0 stream).2.1
          (Alloc.malloc env σ0 size0 stream).2.2).2 env.curDevice =
        Alloc.amountAllocated σ0 env.curDevice := by
  obtain ⟨σpre, bid, hm, hdev, hamt⟩ :=
    Alloc.malloc_success_shape env σ0 size0 stream hok
  rw [hm] at hp ⊢
  obtain ⟨-, -, h3, h4, h5⟩ := Alloc.mallocFinish_spec σpre env.curDevice
    stream (Alloc.round_size size0)
    (decide (Alloc.round_size size0 ≤ Alloc.kSmallAlloc)) bid
  have hbdev := Alloc.splitStep_block_device σpre env.curDevice stream
    (Alloc.round_size size0)
    (decide (Alloc.round_size size0 ≤ Alloc.kSmallAlloc)) bid hdev
  have hfr := Alloc.free_recorded_amount _ _ _ hp h3
  obtain ⟨hfr1, hfr2⟩ := hfr
  rw [h4] at hfr2
  dsimp only at hfr2
  rw [hbdev] at hfr2
  refine ⟨hfr1, ((Alloc.splitStep σpre env.curDevice stream
      (Alloc.round_size size0)
      (decide (Alloc.round_size size0 ≤ Alloc.kSmallAlloc)) bid).1.getBlock
    (Alloc.splitStep σpre env.curDevice stream (Alloc.round_size size0)
      (decide (Alloc.round_size size0 ≤ Alloc.kSmallAlloc)) bid).2).size,
    ?_, ?_, ?_⟩
  · rw [h5, hamt]
  · exact hfr2
  · rw [hfr2, h5, hamt]
    omega

/-- C8 (witness): `malloc_free_amount` on a concrete run — a fresh 2 MiB
allocation on the empty allocator followed by a free of the returned
pointer brings `amount_allocated` back to its initial value. -/
theorem Alloc.malloc_free_amount_witness :
    (Alloc.malloc Alloc.exEnv Alloc.AllocState.init 2097152 0).1 = none ∧
    (Alloc.malloc Alloc.exEnv Alloc.AllocState.init 2097152 0).2.2 ≠ 0 ∧
    (Alloc.free (Alloc.malloc Alloc.exEnv Alloc.AllocState.init 2097152 0).2.1
      (Alloc.malloc Alloc.exEnv Alloc.AllocState.init 2097152 0).2.2).1 =
      none ∧
    Alloc.amountAllocated
      (Alloc.free (Alloc.malloc Alloc.exEnv Alloc.AllocState.init 2097152 0).2.1
        (Alloc.malloc Alloc.exEnv Alloc.AllocState.init 2097152 0).2.2).2
      Alloc.exEnv.curDevice =
    Alloc.amountAllocated Alloc.AllocState.init Alloc.exEnv.curDevice :=
  have h := Alloc.malloc_free_amount Alloc.exEnv Alloc.AllocState.init
    2097152 0 (by decide) (by decide)
  ⟨by decide, by decide, h.1, h.2.elim fun _ hB => hB.2.2⟩

set_option maxRecDepth 10000 in
set_option maxRecDepth 10000 in
/-- C4 (counterexample): the first node appended to an empty graph receives
the midpoint position `0` (`kMidPoint`), not `MIN + stride * 1`. -/
theorem IR.append_positions_cex :
    (IR.appendN 10)[0]? = some (1, 0) ∧
    (0 : Int) ≠ IR.kLowerBound + 1 * IR.kAppendInterval := by
  refine ⟨rfl, by decide⟩

set_option maxRecDepth 10000 in
/-- C4 (amended): appending 10 nodes to an empty graph assigns the k-th
node (k ∈ 1..10) the position `(k - 1) * 2^40` — the first node lands at
the midpoint 0 and each further append advances by the stride; the
positions `MIN + stride * k` arise only after `reIndexTopology`, which
re-spaces the 10 nodes at exactly those values. -/
theorem IR.append_positions_spec :
    IR.appendN 10 =
      [(1, 0), (2, 1 * IR.kAppendInterval), (3, 2 * IR.kAppendInterval),
       (4, 3 * IR.kAppendInterval), (5, 4 * IR.kAppendInterval),
       (6, 5 * IR.kAppendInterval), (7, 6 * IR.kAppendInterval),
       (8, 7 * IR.kAppendInterval), (9, 8 * IR.kAppendInterval),
       (10, 9 * IR.kAppendInterval)] ∧
    IR.reIndexTopology (IR.appendN 10) =
      [(1, IR.kLowerBound + 1 * IR.kAppendInterval),
       (2, IR.kLowerBound + 2 * IR.kAppendInterval),
       (3, IR.kLowerBound + 3 * IR.kAppendInterval),
       (4, IR.kLowerBound + 4 * IR.kAppendInterval),
       (5, IR.kLowerBound + 5 * IR.kAppendInterval),
       (6, IR.kLowerBound + 6 * IR.kAppendInterval),
       (7, IR.kLowerBound + 7 * IR.kAppendInterval),
       (8, IR.kLowerBound + 8 * IR.kAppendInterval),
       (9, IR.kLowerBound + 9 * IR.kAppendInterval),
       (10, IR.kLowerBound + 10 * IR.kAppendInterval)] := by
  constructor <;> decide

namespace IR

theorem decOffsetsFrom_getElem (i j : Nat) (l : List IRValue) :
    (decOffsetsFrom i l)[j]? =
      if j < i then l[j]?
      else (l[j]?).map fun w => { w with offset := w.offset - 1 } := by
  induction l generalizing i j with
  | nil => simp [decOffsetsFrom]
  | cons v rest ih =>
    cases i with
    | zero =>
      cases j with
      | zero => simp [decOffsetsFrom]
      | succ j => simp [decOffsetsFrom, ih]
    | succ i =>
      cases j with
      | zero => simp [decOffsetsFrom]
      | succ j =>
        simp only [decOffsetsFrom, List.getElem?_cons_succ, ih,
          Nat.succ_lt_succ_iff]

theorem decOffsetsFrom_length (i : Nat) (l : List IRValue) :
    (decOffsetsFrom i l).length = l.length := by
  induction l generalizing i with
  | nil => cases i <;> rfl
  | cons v rest ih =>
    cases i with
    | zero => simp [decOffsetsFrom, ih]
    | succ i => simp [decOffsetsFrom, ih]

theorem eraseIdx_getElem {α : Type} (l : List α) (i j : Nat) :
    (l.eraseIdx i)[j]? = if j < i then l[j]? else l[j + 1]? := by
  induction l generalizing i j with
  | nil => simp [List.eraseIdx]
  | cons v rest ih =>
    cases i with
    | zero => simp [List.eraseIdx]
    | succ i =>
      cases j with
      | zero => simp [List.eraseIdx]
      | succ j =>
        simp only [List.eraseIdx, List.getElem?_cons_succ, ih,
          Nat.succ_lt_succ_iff]

end IR

/-- C5: `erase_output(i)` fails when output `i` has at least one use; when
it has none, it removes that output and decrements the recorded offset of
every following output, so that whenever the offsets matched the list
indices before, each remaining output at index `j` again has offset `j`. -/
theorem IR.eraseOutput_spec (outs : List IR.IRValue) (i : Nat)
    (v : IR.IRValue) (hv : outs[i]? = some v) :
    (v.uses ≠ [] → IR.eraseOutput outs i = none) ∧
    (v.uses = [] →
      ∃ outs', IR.eraseOutput outs i = some outs' ∧
        outs'.length = outs.length - 1 ∧
        (∀ j, j < i → outs'[j]? = outs[j]?) ∧
        (∀ j, i ≤ j → outs'[j]? =
          (outs[j + 1]?).map fun w => { w with offset := w.offset - 1 }) ∧
        ((∀ j (w : IR.IRValue), outs[j]? = some w → w.offset = j) →
          ∀ j (w : IR.IRValue), outs'[j]? = some w → w.offset = j)) := by
  have hi : i < outs.length := by
    by_contra h
    push_neg at h
    rw [List.getElem?_eq_none h] at hv
    exact Option.noConfusion hv
  constructor
  · intro hne
    simp [IR.eraseOutput, hv, hne]
  · intro hnil
    refine ⟨IR.decOffsetsFrom i (outs.eraseIdx i),
      by simp [IR.eraseOutput, hv, hnil], ?_, ?_, ?_, ?_⟩
    · rw [IR.decOffsetsFrom_length, List.length_eraseIdx]
      simp [hi]
    · intro j hj
      rw [IR.decOffsetsFrom_getElem, if_pos hj, IR.eraseIdx_getElem,
        if_pos hj]
    · intro j hj
      rw [IR.decOffsetsFrom_getElem, if_neg (by omega),
        IR.eraseIdx_getElem, if_neg (by omega)]
    · intro hinv j w hw
      by_cases hj : j < i
      · rw [IR.decOffsetsFrom_getElem, if_pos hj, IR.eraseIdx_getElem,
          if_pos hj] at hw
        exact hinv j w hw
      · rw [IR.decOffsetsFrom_getElem, if_neg hj, IR.eraseIdx_getElem,
          if_neg hj] at hw
        cases hw0 : outs[j + 1]? with
        | none => rw [hw0] at hw; exact Option.noConfusion hw
        | some w0 =>
          rw [hw0] at hw
          cases hw
          have h1 := hinv (j + 1) w0 hw0
          show w0.offset - 1 = j
          omega

/-- C5 (witness): `eraseOutput_spec` on `exOutputs` — erasing used output 1
fails, erasing unused output 0 succeeds and shortens the list. -/
theorem IR.eraseOutput_spec_witness :
    IR.eraseOutput IR.exOutputs 1 = none ∧
    ∃ outs', IR.eraseOutput IR.exOutputs 0 = some outs' ∧
      outs'.length = IR.exOutputs.length - 1 :=
  ⟨(IR.eraseOutput_spec IR.exOutputs 1 ⟨1, [(5, 0)]⟩ (by decide)).1 (by decide),
   ((IR.eraseOutput_spec IR.exOutputs 0 ⟨0, []⟩ (by decide)).2
      (by decide)).elim fun o ho => ⟨o, ho.1, ho.2.1⟩⟩

/-- C10: for every live node `n` and either side, `try_move(n, n, side)`
returns `true` immediately and leaves the graph — every node's block
position, topological position and ordering links — completely unchanged. -/
theorem IR.tryMove_self (g : IR.MoveGraph) (n : Nat) (side : IR.MoveSide)
    (hlive : n ∈ g.ids) :
    IR.tryMove g n n side = (true, g) := by
  simp [IR.tryMove]

/-- C10 (witness): `tryMove_self` on the one-node graph. -/
theorem IR.tryMove_self_witness :
    1 ∈ IR.exMoveGraph.ids ∧
    IR.tryMove IR.exMoveGraph 1 1 .before = (true, IR.exMoveGraph) :=
  ⟨by decide, IR.tryMove_self IR.exMoveGraph 1 .before (by decide)⟩

namespace Types

theorem isSubtypeOf_refl (t : JType) : isSubtypeOf t t = true := by
  simp [isSubtypeOf, (beqJ_iff t t).mpr rfl]

theorem unify_self (t : JType) : unifyTypes t t = some t := by
  unfold unifyTypes
  rw [isSubtypeOf_refl t]
  simp

theorem unifyList_self (l : List JType) : unifyList l l = some l := by
  induction l with
  | nil => rfl
  | cons a r ih => simp [unifyList, unify_self, ih]

theorem isSubtypeOf_none_left (t : JType) (h : t ≠ JType.none) :
    isSubtypeOf JType.none t = false := by
  cases t <;> simp_all [isSubtypeOf, beqJ]

theorem isSubtypeOf_none_right (t : JType) (h : t ≠ JType.none) :
    isSubtypeOf t JType.none = false := by
  cases t <;> simp_all [isSubtypeOf, beqJ]

theorem isSubtypeOf_tuple_dynamic (es : List JType) :
    isSubtypeOf (JType.tuple es) JType.dynamic = false := by
  simp [isSubtypeOf, beqJ]

theorem isSubtypeOf_tuple_none (es : List JType) :
    isSubtypeOf (JType.tuple es) JType.none = false := by
  simp [isSubtypeOf, beqJ]

theorem isSubtypeOf_list_dynamic (e : JType) :
    isSubtypeOf (JType.list e) JType.dynamic = false := by
  simp [isSubtypeOf, beqJ]

theorem isSubtypeOf_list_none (e : JType) :
    isSubtypeOf (JType.list e) JType.none = false := by
  simp [isSubtypeOf, beqJ]

theorem isSubtypeOf_tuple_tuple (es1 es2 : List JType) :
    isSubtypeOf (JType.tuple es1) (JType.tuple es2) = beqL es1 es2 := by
  cases hb : beqL es1 es2 <;> simp [isSubtypeOf, beqJ, hb]

theorem isSubtypeOf_list_list (e1 e2 : JType) :
    isSubtypeOf (JType.list e1) (JType.list e2) = beqJ e1 e2 := by
  cases hb : beqJ e1 e2 <;> simp [isSubtypeOf, beqJ, hb]

theorem unifyList_length_ne (l1 l2 : List JType)
    (h : l1.length ≠ l2.length) : unifyList l1 l2 = Option.none := by
  induction l1 generalizing l2 with
  | nil => cases l2 with
    | nil => simp at h
    | cons b r2 => rfl
  | cons a r1 ih =>
    cases l2 with
    | nil => rfl
    | cons b r2 =>
      have hr : r1.length ≠ r2.length := by simpa using h
      cases hu : unifyTypes a b <;> simp [unifyList, hu, ih r2 hr]

theorem unify_none_left (T : JType) (hT : T ≠ JType.none) :
    unifyTypes JType.none T = some (JType.optional T) ∧
    unifyTypes T JType.none = some (JType.optional T) := by
  have h1 := isSubtypeOf_none_left T hT
  have h2 := isSubtypeOf_none_right T hT
  have h3 : isSubtypeOf JType.none JType.dynamic = false := rfl
  have h4 : isSubtypeOf JType.none JType.none = true := rfl
  constructor <;> simp [unifyTypes, h1, h2, h3, h4]

theorem unify_tuple (es1 es2 : List JType) :
    unifyTypes (JType.tuple es1) (JType.tuple es2) =
      (unifyList es1 es2).map JType.tuple := by
  by_cases hb : beqL es1 es2 = true
  · have he : es1 = es2 := (beqL_iff es1 es2).mp hb
    subst he
    simp [unifyTypes, isSubtypeOf_refl, unifyList_self]
  · have hb' : beqL es1 es2 = false := by simpa using hb
    have hbsym : beqL es2 es1 = false := by
      by_cases h2 : beqL es2 es1 = true
      · have he := (beqL_iff es2 es1).mp h2
        rw [← he] at hb
        exact absurd ((beqL_iff es2 es2).mpr rfl) hb
      · simpa using h2
    by_cases hlen : es1.length = es2.length
    · simp [unifyTypes, isSubtypeOf_tuple_tuple, hb', hbsym,
        isSubtypeOf_tuple_dynamic, isSubtypeOf_tuple_none, hlen]
    · simp [unifyTypes, isSubtypeOf_tuple_tuple, hb', hbsym,
        isSubtypeOf_tuple_dynamic, isSubtypeOf_tuple_none, hlen,
        unifyList_length_ne es1 es2 hlen]

theorem unify_list (e1 e2 : JType) :
    unifyTypes (JType.list e1) (JType.list e2) =
      (unifyTypes e1 e2).map JType.list := by
  by_cases hb : beqJ e1 e2 = true
  · have he : e1 = e2 := (beqJ_iff e1 e2).mp hb
    subst he
    simp [unifyTypes, isSubtypeOf_refl, unify_self]
  · have hb' : beqJ e1 e2 = false := by simpa using hb
    have hbsym : beqJ e2 e1 = false := by
      by_cases h2 : beqJ e2 e1 = true
      · have he := (beqJ_iff e2 e1).mp h2
        rw [← he] at hb
        exact absurd ((beqJ_iff e2 e2).mpr rfl) hb
      · simpa using h2
    cases hu : unifyTypes e1 e2 <;>
      simp [unifyTypes, isSubtypeOf_list_list, hb', hbsym,
        isSubtypeOf_list_dynamic, isSubtypeOf_list_none, hu]

theorem unifyList_isSome (l1 l2 : List JType) :
    (unifyList l1 l2).isSome ↔
      (l1.length = l2.length ∧
        ∀ p ∈ l1.zip l2, (unifyTypes p.1 p.2).isSome) := by
  induction l1 generalizing l2 with
  | nil => cases l2 <;> simp [unifyList]
  | cons a r1 ih =>
    cases l2 with
    | nil => simp [unifyList]
    | cons b r2 =>
      cases hu : unifyTypes a b <;> cases hl : unifyList r1 r2
      all_goals simp_all [unifyList, hu, hl]
      · intro hlen
        have hiff := ih r2
        rw [hl] at hiff
        simp [hlen] at hiff
        exact hiff
      · have hrest := (ih r2).mp (by simp [hl])
        exact ⟨hrest.1, hrest.2⟩

theorem unifyList_some (l1 l2 us : List JType) (h : unifyList l1 l2 = some us) :
    us.length = l1.length ∧
    ∀ (j : Nat) (a b u : JType), l1[j]? = some a → l2[j]? = some b →
      us[j]? = some u → unifyTypes a b = some u := by
  induction l1 generalizing l2 us with
  | nil =>
    cases l2 with
    | nil =>
      simp [unifyList] at h
      subst h
      simp
    | cons b r2 => exact Option.noConfusion h
  | cons a r1 ih =>
    cases l2 with
    | nil => exact Option.noConfusion h
    | cons b r2 =>
      simp only [unifyList] at h
      cases hu : unifyTypes a b <;> rw [hu] at h
      · exact Option.noConfusion h
      · cases hl : unifyList r1 r2 <;> rw [hl] at h
        · exact Option.noConfusion h
        · rename_i u us'
          cases h
          obtain ⟨ihl, ihp⟩ := ih r2 us' hl
          refine ⟨by simp [ihl], ?_⟩
          intro j x y u' hx hy hu'
          cases j with
          | zero =>
            simp at hx hy hu'
            subst hx; subst hy; subst hu'
            exact hu
          | succ j =>
            simp at hx hy hu'
            exact ihp j x y u' hx hy hu'

end Types

/-- C7: type unification is structural — unifying `None` with a concrete
type `T ≠ None` yields `Optional[T]` in either argument order; two tuple
types unify exactly when they have equal arity and all corresponding
element pairs unify, yielding the tuple of the element-wise unifications;
two list types unify exactly when their element types unify, yielding the
list of the unified element type. -/
theorem Types.unifyTypes_spec :
    (∀ T : Types.JType, T ≠ Types.JType.none →
      Types.unifyTypes Types.JType.none T =
        some (Types.JType.optional T) ∧
      Types.unifyTypes T Types.JType.none =
        some (Types.JType.optional T)) ∧
    (∀ es1 es2 : List Types.JType,
      Types.unifyTypes (Types.JType.tuple es1) (Types.JType.tuple es2) =
        (Types.unifyList es1 es2).map Types.JType.tuple) ∧
    (∀ e1 e2 : Types.JType,
      Types.unifyTypes (Types.JType.list e1) (Types.JType.list e2) =
        (Types.unifyTypes e1 e2).map Types.JType.list) ∧
    (∀ l1 l2 : List Types.JType, (Types.unifyList l1 l2).isSome ↔
      (l1.length = l2.length ∧
        ∀ p ∈ l1.zip l2, (Types.unifyTypes p.1 p.2).isSome)) ∧
    (∀ l1 l2 us : List Types.JType, Types.unifyList l1 l2 = some us →
      us.length = l1.length ∧
      ∀ (j : Nat) (a b u : Types.JType), l1[j]? = some a →
        l2[j]? = some b → us[j]? = some u →
        Types.unifyTypes a b = some u) :=
  ⟨fun T hT => Types.unify_none_left T hT,
   Types.unify_tuple, Types.unify_list,
   Types.unifyList_isSome, Types.unifyList_some⟩

/-- C7 (witness): `unifyTypes_spec` at concrete types — `None` with `int`
gives `Optional[int]`, and singleton tuples of `int`/`float` unify via the
element-wise result. -/
theorem Types.unifyTypes_spec_witness :
    Types.JType.int ≠ Types.JType.none ∧
    Types.unifyTypes Types.JType.none Types.JType.int =
      some (Types.JType.optional Types.JType.int) ∧
    Types.unifyTypes (Types.JType.tuple [Types.JType.int])
        (Types.JType.tuple [Types.JType.float]) =
      (Types.unifyList [Types.JType.int] [Types.JType.float]).map
        Types.JType.tuple :=
  ⟨fun h => Types.JType.noConfusion h,
   (Types.unifyTypes_spec.1 Types.JType.int
      (fun h => Types.JType.noConfusion h)).1,
   Types.unifyTypes_spec.2.1 [Types.JType.int] [Types.JType.float]⟩

namespace Alias

theorem isSubsetOf_refl (a : AliasInfo) : a.isSubsetOf a = true := by
  cases h : a.isWildcard <;>
    simp [AliasInfo.isSubsetOf, h, List.all_eq_true]

theorem merge_flag (carried outs : List Nat) (l : List Nat) :
    ∀ (σ : AState) (b : Bool),
      (l.foldl
        (fun (p : AState × Bool) i =>
          let input := carried.getD i 0
          let output := outs.getD i 0
          let nc :=
            if (Alloc.alookup input p.1).isSome then
              if ! (getAlias p.1 output).isSubsetOf (getAlias p.1 output) then
                true
              else p.2
            else p.2
          (addAliasValue p.1 input output, nc))
        (σ, b)).2 = b := by
  induction l with
  | nil => intro σ b; rfl
  | cons i rest ih =>
    intro σ b
    rw [List.foldl_cons]
    show (List.foldl _
        (addAliasValue σ (carried.getD i 0) (outs.getD i 0),
         if (Alloc.alookup (carried.getD i 0) σ).isSome = true then
           if (! (getAlias σ (outs.getD i 0)).isSubsetOf
               (getAlias σ (outs.getD i 0))) = true then true
           else b
         else b) rest).2 = b
    rw [show (if (Alloc.alookup (carried.getD i 0) σ).isSome = true then
           if (! (getAlias σ (outs.getD i 0)).isSubsetOf
               (getAlias σ (outs.getD i 0))) = true then true
           else b
         else b) = b from by simp [isSubsetOf_refl]]
    exact ih _ b

theorem loopIter_flag (n : LoopNode) (σ : AState) :
    (loopIter n σ).2 = false := by
  unfold loopIter
  exact merge_flag _ _ _ _ false

theorem analyzeLoop_once (n : LoopNode) (σ : AState) :
    analyzeLoop n σ = (loopIter n σ).1 := by
  unfold analyzeLoop analyzeLoopGo
  simp [loopIter_flag n σ]

end Alias

/-- C1: the convergence test of `analyzeLoop` compares an output's alias
info with itself (`valueToAlias_[output].isSubsetOf(valueToAlias_[output])`),
so `notConverged` can never be set: for every loop and every starting
state the body is analyzed exactly once.  On the concrete three-tensor
loop whose body chains aliases across the carried values, the resulting
alias information is not a fixpoint — one more analysis of the body adds
alias set 1 to node output 12 — contradicting the claimed
iterate-until-no-membership-changes behaviour. -/
theorem Alias.analyzeLoop_no_fixpoint :
    (∀ (n : Alias.LoopNode) (σ : Alias.AState),
      (Alias.loopIter n σ).2 = false ∧
      Alias.analyzeLoop n σ = (Alias.loopIter n σ).1) ∧
    (1 ∉ (Alias.getAlias (Alias.analyzeLoop Alias.exLoop Alias.exState)
        12).sets ∧
     1 ∈ (Alias.getAlias
        (Alias.loopIter Alias.exLoop
          (Alias.analyzeLoop Alias.exLoop Alias.exState)).1 12).sets) :=
  ⟨fun n σ => ⟨Alias.loopIter_flag n σ, Alias.analyzeLoop_once n σ⟩,
   by decide, by decide⟩
